import Mathlib

/-!
Shallow embedding of the nd2-rs ND2 reader (container layer, CLX-Lite
decoder, metadata interpreter, axis/frame resolver, reader facade) and
proofs of the specification claims about it.

Bytes are modelled as `Nat` values (< 256 on real inputs); little-endian
multi-byte reads combine them arithmetically.  Fallible Rust code
(`Result<T, Nd2Error>`) is modelled as `Except Nd2Error T`.  The zlib
decompressor (external crate `flate2`) is passed in as an oracle
function, and the recursive CLX decoder takes an explicit fuel argument
because decompression can grow the input.
-/

namespace Nd2

/-- Association-list model of `std::collections::HashMap`: unique keys,
`insert` replaces an existing binding in place or appends a fresh one. -/
def getVal {κ α : Type} [DecidableEq κ] (m : List (κ × α)) (k : κ) : Option α :=
  match m with
  | [] => none
  | (k', v) :: rest => if k' = k then some v else getVal rest k

def hasKey {κ α : Type} [DecidableEq κ] (m : List (κ × α)) (k : κ) : Bool :=
  match m with
  | [] => false
  | (k', _) :: rest => if k' = k then true else hasKey rest k

def insertAL {κ α : Type} [DecidableEq κ] (m : List (κ × α)) (k : κ) (v : α) :
    List (κ × α) :=
  match m with
  | [] => [(k, v)]
  | (k', v') :: rest => if k' = k then (k, v) :: rest else (k', v') :: insertAL rest k v

def removeAL {κ α : Type} [DecidableEq κ] (m : List (κ × α)) (k : κ) :
    List (κ × α) :=
  match m with
  | [] => []
  | (k', v') :: rest => if k' = k then rest else (k', v') :: removeAL rest k

/-- `error.rs`: the closed error set `Nd2Error`. `Io` carries no payload
here (the payload is an OS error message). -/
inductive Nd2Error : Type where
  | io : Nd2Error
  | invalidFormat (msg : String) : Nd2Error
  | invalidMagic (expected actual : Nat) : Nd2Error
  | corruptChunkHeader (position : Nat) : Nd2Error
  | chunkNotFound (name : String) : Nd2Error
  | invalidChunkmapSignature : Nd2Error
  | clxParse (msg : String) : Nd2Error
  | unsupportedClxType (code : Nat) : Nd2Error
  | decompression (msg : String) : Nd2Error
  | utf16Decode (msg : String) : Nd2Error
  | unsupportedVersion (major minor : Nat) : Nd2Error
  | metadataParse (msg : String) : Nd2Error
deriving DecidableEq, Repr

abbrev Result (α : Type) : Type := Except Nd2Error α

/-- `parse/clx_lite.rs`: the dynamically-typed CLX value tree.
`Object` is a `HashMap<String, ClxValue>`, modelled as an assoc list. -/
inductive ClxValue : Type where
  | bool (b : Bool) : ClxValue
  | int (i : Int) : ClxValue
  | uint (u : Nat) : ClxValue
  | float (f : Float) : ClxValue
  | string (s : String) : ClxValue
  | byteArray (bs : List Nat) : ClxValue
  | object (m : List (String × ClxValue)) : ClxValue
  | array (a : List ClxValue) : ClxValue

namespace ClxValue

def as_object : ClxValue → Option (List (String × ClxValue))
  | .object m => some m
  | _ => none

def as_str : ClxValue → Option String
  | .string s => some s
  | _ => none

def as_i64 : ClxValue → Option Int
  | .int i => some i
  | _ => none

def as_u64 : ClxValue → Option Nat
  | .uint u => some u
  | _ => none

def as_f64 : ClxValue → Option Float
  | .float f => some f
  | _ => none

def as_bool : ClxValue → Option Bool
  | .bool b => some b
  | _ => none

end ClxValue

/-- `types/attributes.rs` -/
inductive PixelDataType : Type where
  | float : PixelDataType
  | unsigned : PixelDataType
deriving DecidableEq, Repr

inductive CompressionType : Type where
  | lossless : CompressionType
  | lossy : CompressionType
  | none : CompressionType
deriving DecidableEq, Repr

structure Attributes : Type where
  bits_per_component_in_memory : Nat
  bits_per_component_significant : Nat
  component_count : Nat
  height_px : Nat
  pixel_data_type : PixelDataType
  sequence_count : Nat
  width_bytes : Option Nat
  width_px : Option Nat
  compression_level : Option Float
  compression_type : Option CompressionType
  tile_height_px : Option Nat
  tile_width_px : Option Nat
  channel_count : Option Nat

/-- `types/text_info.rs` (all fields optional strings). -/
structure TextInfo : Type where
  image_id : Option String := none
  info_type : Option String := none
  group : Option String := none
  sample_id : Option String := none
  author : Option String := none
  description : Option String := none
  capturing : Option String := none
  sampling : Option String := none
  location : Option String := none
  date : Option String := none
  conclusion : Option String := none
  info1 : Option String := none
  info2 : Option String := none
  optics : Option String := none
  app_version : Option String := none
deriving DecidableEq, Repr

/-- `types/experiment.rs` -/
structure PeriodDiff : Type where
  avg : Float
  max : Float
  min : Float

structure TimeLoopParams : Type where
  start_ms : Float
  period_ms : Float
  duration_ms : Float
  period_diff : Option PeriodDiff

structure TimeLoopT : Type where
  count : Nat
  nesting_level : Nat
  parameters : TimeLoopParams

structure ZStackLoopParams : Type where
  home_index : Int
  step_um : Float
  bottom_to_top : Bool
  device_name : Option String

structure ZStackLoopT : Type where
  count : Nat
  nesting_level : Nat
  parameters : ZStackLoopParams

structure StagePosition : Type where
  x : Float
  y : Float
  z : Float

structure Position : Type where
  stage_position_um : StagePosition
  pfs_offset : Option Float
  name : Option String

structure XYPosLoopParams : Type where
  is_setting_z : Bool
  points : List Position

structure XYPosLoopT : Type where
  count : Nat
  nesting_level : Nat
  parameters : XYPosLoopParams

structure PeriodT : Type where
  count : Nat
  start_ms : Float
  period_ms : Float
  duration_ms : Float
  period_diff : Option PeriodDiff

structure NETimeLoopParams : Type where
  periods : List PeriodT

structure NETimeLoopT : Type where
  count : Nat
  nesting_level : Nat
  parameters : NETimeLoopParams

structure CustomLoopT : Type where
  count : Nat
  nesting_level : Nat

inductive ExpLoop : Type where
  | timeLoop (t : TimeLoopT) : ExpLoop
  | neTimeLoop (n : NETimeLoopT) : ExpLoop
  | xyPosLoop (xy : XYPosLoopT) : ExpLoop
  | zStackLoop (z : ZStackLoopT) : ExpLoop
  | customLoop (c : CustomLoopT) : ExpLoop

/-- `ExpLoop::count()` as used by the experiment walk. -/
def ExpLoop.count : ExpLoop → Nat
  | .timeLoop t => t.count
  | .neTimeLoop n => n.count
  | .xyPosLoop xy => xy.count
  | .zStackLoop z => z.count
  | .customLoop c => c.count

/-! ## Byte-level utilities -/

/-- ASCII byte values of a string constant. -/
def strBytes (s : String) : List Nat := s.data.map Char.toNat

/-- Little-endian combination of a byte list (low byte first). -/
def leBytes (bs : List Nat) : Nat := bs.foldr (fun b acc => b + 256 * acc) 0

/-- `bytes[pos .. pos+n]`. -/
def slice (data : List Nat) (pos n : Nat) : List Nat := (data.drop pos).take n

/-- `read_exact` on an in-memory buffer: `n` bytes at `pos`, or `none` at EOF. -/
def takeExact (data : List Nat) (pos n : Nat) : Option (List Nat) :=
  if pos + n ≤ data.length then some (slice data pos n) else none

/-- Reinterpret a byte as Rust `i8` (two's complement). -/
def toI8 (b : Nat) : Int := if b < 128 then (b : Int) else (b : Int) - 256

/-- Rust `char::to_digit(10)`. -/
def charToDigit10 (c : Nat) : Option Nat :=
  if 48 ≤ c ∧ c ≤ 57 then some (c - 48) else none

/-- `u16` code units from a byte list, low byte first (`chunks_exact(2)`,
trailing odd byte dropped). -/
def toU16LE : List Nat → List Nat
  | b0 :: b1 :: rest => (b0 + 256 * b1) :: toU16LE rest
  | _ => []

/-- UTF-16 code-unit sequence to characters; `none` on a lone surrogate
(the semantics of `String::from_utf16`). -/
def utf16ToChars : List Nat → Option (List Char)
  | [] => some []
  | u :: rest =>
    if u < 0xD800 ∨ 0xE000 ≤ u then
      (utf16ToChars rest).map (fun cs => Char.ofNat u :: cs)
    else if u < 0xDC00 then
      match rest with
      | u2 :: rest' =>
        if 0xDC00 ≤ u2 ∧ u2 < 0xE000 then
          (utf16ToChars rest').map
            (fun cs => Char.ofNat (0x10000 + (u - 0xD800) * 0x400 + (u2 - 0xDC00)) :: cs)
        else none
      | [] => none
    else none

/-- Strict UTF-8 decoding (the semantics of Rust `String::from_utf8`):
rejects invalid leads, bad continuations, overlong forms, surrogates and
code points above `0x10FFFF`. -/
def utf8Decode : List Nat → Option (List Char)
  | [] => some []
  | b :: rest =>
    if b < 0x80 then (utf8Decode rest).map (fun cs => Char.ofNat b :: cs)
    else if b < 0xC2 then none
    else if b < 0xE0 then
      match rest with
      | b1 :: rest' =>
        if 0x80 ≤ b1 ∧ b1 < 0xC0 then
          (utf8Decode rest').map (fun cs => Char.ofNat ((b - 0xC0) * 64 + (b1 - 0x80)) :: cs)
        else none
      | [] => none
    else if b < 0xF0 then
      match rest with
      | b1 :: b2 :: rest' =>
        if (0x80 ≤ b1 ∧ b1 < 0xC0) ∧ (0x80 ≤ b2 ∧ b2 < 0xC0) ∧
            (b = 0xE0 → 0xA0 ≤ b1) ∧ (b = 0xED → b1 < 0xA0) then
          (utf8Decode rest').map
            (fun cs => Char.ofNat ((b - 0xE0) * 4096 + (b1 - 0x80) * 64 + (b2 - 0x80)) :: cs)
        else none
      | _ => none
    else if b < 0xF5 then
      match rest with
      | b1 :: b2 :: b3 :: rest' =>
        if (0x80 ≤ b1 ∧ b1 < 0xC0) ∧ (0x80 ≤ b2 ∧ b2 < 0xC0) ∧ (0x80 ≤ b3 ∧ b3 < 0xC0) ∧
            (b = 0xF0 → 0x90 ≤ b1) ∧ (b = 0xF4 → b1 < 0x90) then
          (utf8Decode rest').map
            (fun cs => Char.ofNat
              ((b - 0xF0) * 262144 + (b1 - 0x80) * 4096 + (b2 - 0x80) * 64 + (b3 - 0x80)) :: cs)
        else none
      | _ => none
    else none

/-- `String::from_utf8(k).ok()` on raw key bytes. -/
def stringFromUtf8 (bs : List Nat) : Option String :=
  (utf8Decode bs).map String.mk

/-- Lossy UTF-8 decode, used only to format error messages
(`String::from_utf8_lossy`); on the valid inputs reached by the claims it
agrees with the strict decode, invalid bytes become U+FFFD. -/
def stringFromUtf8Lossy (bs : List Nat) : String :=
  match utf8Decode bs with
  | some cs => String.mk cs
  | none => String.mk (bs.map (fun b => if b < 0x80 then Char.ofNat b else Char.ofNat 0xFFFD))

/-- Strip trailing NUL characters (`trim_end_matches('\0')`). -/
def trimTrailingNul (cs : List Char) : List Char :=
  ((cs.reverse).dropWhile (fun c => c = Char.ofNat 0)).reverse

/-! ## Constants (`constants.rs`) -/

def ND2_CHUNK_MAGIC : Nat := 0x0ABECEDA

def JP2_MAGIC : Nat := 0x0C000000

def ND2_FILE_SIGNATURE : List Nat := strBytes "ND2 FILE SIGNATURE CHUNK NAME01!"

def ND2_CHUNKMAP_SIGNATURE : List Nat := strBytes "ND2 CHUNK MAP SIGNATURE 0000001!"

def ND2_FILEMAP_SIGNATURE : List Nat := strBytes "ND2 FILEMAP SIGNATURE NAME 0001!"

/-! ## Chunk header (`chunk/header.rs`) -/

structure ChunkHeader : Type where
  magic : Nat
  name_length : Nat
  data_length : Nat
deriving DecidableEq, Repr

/-- `ChunkHeader::read`: 16 bytes `{u32 magic, u32 name_length, u64
data_length}` little-endian at `pos`; returns the header and the new
position. -/
def ChunkHeader.read (data : List Nat) (pos : Nat) : Result (ChunkHeader × Nat) :=
  match takeExact data pos 4 with
  | none => .error (.invalidFormat "Failed to read chunk magic")
  | some m =>
    match takeExact data (pos + 4) 4 with
    | none => .error (.invalidFormat "Failed to read chunk name length")
    | some nl =>
      match takeExact data (pos + 8) 8 with
      | none => .error (.invalidFormat "Failed to read chunk data length")
      | some dl => .ok (⟨leBytes m, leBytes nl, leBytes dl⟩, pos + 16)

def ChunkHeader.validate_magic (h : ChunkHeader) : Result Unit :=
  if h.magic ≠ ND2_CHUNK_MAGIC then
    .error (.invalidMagic ND2_CHUNK_MAGIC h.magic)
  else .ok ()

/-! ## Chunkmap (`chunk/map.rs`) -/

/-- Chunkmap: chunk-name bytes to (offset, size), assoc-list model of the
`HashMap`. -/
abbrev ChunkMap : Type := List (List Nat × (Nat × Nat))

/-- The inner name-collection loop of `read_chunkmap` (map.rs lines 76-91):
push bytes until the name ends with `'!'`; if the last 32 collected bytes
ever match the chunkmap terminator signature, report termination.  Returns
(collected name, new position, terminator-hit flag).  The loop consumes at
least one byte per step, so `data.length + 1` steps always complete it;
the structural `steps` counter makes the definition kernel-reducible. -/
def collectNameGo (data : List Nat) (steps pos : Nat) (chunk_name : List Nat) :
    List Nat × Nat × Bool :=
  match steps with
  | 0 => (chunk_name, pos, false)
  | steps' + 1 =>
    if pos < data.length then
      let byte := data.getD pos 0
      let cn := chunk_name ++ [byte]
      if cn.getLast? = some 33 then
        (cn, pos + 1, false)
      else if 32 ≤ cn.length ∧ cn.drop (cn.length - 32) = ND2_CHUNKMAP_SIGNATURE then
        (cn, pos + 1, true)
      else
        collectNameGo data steps' (pos + 1) cn
    else
      (chunk_name, pos, false)

def collectName (data : List Nat) (pos : Nat) (chunk_name : List Nat) :
    List Nat × Nat × Bool :=
  collectNameGo data (data.length + 1) pos chunk_name

/-- The entry-parsing loop of `read_chunkmap` (map.rs lines 69-114); every
iteration consumes at least 17 bytes, so `data.length + 1` iterations
always terminate it. -/
def parseChunkmapEntriesGo (data : List Nat) (steps pos : Nat)
    (chunkmap : ChunkMap) : ChunkMap :=
  match steps with
  | 0 => chunkmap
  | steps' + 1 =>
    if pos < data.length then
      if pos + 18 > data.length then chunkmap
      else
        let chunk_name := (collectName data pos []).1
        let pos' := (collectName data pos []).2.1
        let hitTerm := (collectName data pos []).2.2
        if hitTerm then chunkmap
        else if chunk_name.getLast? ≠ some 33 then chunkmap
        else if pos' + 16 > data.length then chunkmap
        else
          let offset := leBytes (slice data pos' 8)
          let size := leBytes (slice data (pos' + 8) 8)
          parseChunkmapEntriesGo data steps' (pos' + 16)
            (insertAL chunkmap chunk_name (offset, size))
    else chunkmap

def parseChunkmapEntries (data : List Nat) (pos : Nat) (chunkmap : ChunkMap) :
    ChunkMap :=
  parseChunkmapEntriesGo data (data.length + 1) pos chunkmap

/-- `read_chunkmap`: locate the end-of-file trailer, seek to the chunkmap
chunk, validate header and filemap name, then parse the entry buffer. -/
def read_chunkmap (file : List Nat) : Result ChunkMap := do
  if file.length < 40 then
    throw (.invalidFormat "Failed to seek to chunkmap signature")
  let signature := slice file (file.length - 40) 32
  if signature ≠ ND2_CHUNKMAP_SIGNATURE then
    throw .invalidChunkmapSignature
  let chunkmap_offset := leBytes (slice file (file.length - 8) 8)
  let (header, pos) ← ChunkHeader.read file chunkmap_offset
  header.validate_magic
  match takeExact file pos header.name_length with
  | none => throw (.invalidFormat "Failed to read chunkmap name")
  | some name =>
    if name ≠ ND2_FILEMAP_SIGNATURE then
      throw (.invalidFormat "Invalid chunkmap section name")
    match takeExact file (pos + header.name_length) header.data_length with
    | none => throw (.invalidFormat "Failed to read chunkmap data")
    | some chunkmap_data => return parseChunkmapEntries chunkmap_data 0 []

/-- `read_chunk`: look up `(offset, size)`, validate the chunk header at
`offset`, skip the name, read `size` bytes. -/
def read_chunk (file : List Nat) (chunkmap : ChunkMap) (name : List Nat) :
    Result (List Nat) := do
  match getVal chunkmap name with
  | none => throw (.chunkNotFound (stringFromUtf8Lossy name))
  | some (offset, size) =>
    let (header, pos) ← ChunkHeader.read file offset
    header.validate_magic
    match takeExact file (pos + header.name_length) size with
    | none => throw (.invalidFormat "Failed to read chunk data")
    | some data => return data

/-! ## File header / version (`reader.rs::read_version`) -/

/-- `Nd2File::read_version`: read the 112-byte header, dispatch on magic,
validate lengths and signature, then parse the ASCII version digits at
payload offsets 3 and 5 (falling back to 0 on a non-digit). -/
def read_version (file : List Nat) : Result (Nat × Nat) :=
  match takeExact file 0 112 with
  | none => .error (.invalidFormat "Failed to read file header")
  | some header =>
    let magic := leBytes (slice header 0 4)
    if magic = JP2_MAGIC then .ok (1, 0)
    else if magic ≠ ND2_CHUNK_MAGIC then .error (.invalidMagic ND2_CHUNK_MAGIC magic)
    else
      let name_length := leBytes (slice header 4 4)
      let data_length := leBytes (slice header 8 8)
      if name_length ≠ 32 ∨ data_length ≠ 64 then
        .error (.invalidFormat "Corrupt file header")
      else
        let name := slice header 16 32
        if name ≠ ND2_FILE_SIGNATURE then
          .error (.invalidFormat "Invalid file signature")
        else
          let data := slice header 48 64
          let major := (charToDigit10 (data.getD 3 0)).getD 0
          let minor := (charToDigit10 (data.getD 5 0)).getD 0
          .ok (major, minor)

/-! ## CLX-Lite decoder (`parse/clx_lite.rs`)

The decoder walks a byte buffer with an explicit cursor position.  The
zlib decompressor is an oracle parameter, and the mutually recursive
functions carry a fuel argument (decompression can grow the input, so no
structural measure on the buffer exists); on every input reached by a
claim the supplied fuel is ample. -/

/-- zlib oracle: decompress or fail with a message. -/
abbrev Zlib : Type := List Nat → Except String (List Nat)

/-! CLX data type codes (`constants.rs::clx_types`). -/

namespace clx_types

def UNKNOWN : Nat := 0
def BOOL : Nat := 1
def INT32 : Nat := 2
def UINT32 : Nat := 3
def INT64 : Nat := 4
def UINT64 : Nat := 5
def DOUBLE : Nat := 6
def VOID_POINTER : Nat := 7
def STRING : Nat := 8
def BYTE_ARRAY : Nat := 9
def DEPRECATED : Nat := 10
def LEVEL : Nat := 11
def COMPRESS : Nat := 76

end clx_types

/-- `cursor.read_u8()`: one byte or an I/O error at EOF. -/
def readU8 (data : List Nat) (pos : Nat) : Result Nat :=
  if pos < data.length then .ok (data.getD pos 0) else .error .io

/-- Little-endian reads used by `byteorder`; I/O error at EOF. -/
def readLE (data : List Nat) (pos n : Nat) : Result Nat :=
  match takeExact data pos n with
  | some bs => .ok (leBytes bs)
  | none => .error .io

/-- Two's complement reinterpretation of an `n*8`-bit unsigned value. -/
def toSigned (u : Nat) (bits : Nat) : Int :=
  if u < 2 ^ (bits - 1) then (u : Int) else (u : Int) - 2 ^ bits

/-- IEEE 754 binary64 from its bit pattern (payload of a CLX Double).
Never evaluated inside a proof; present so that the decoder carries the
same information as the source. -/
def floatOfBits (u : Nat) : Float :=
  let sign : Float := if u / 2 ^ 63 = 0 then 1.0 else -1.0
  let exp : Nat := (u / 2 ^ 52) % 2 ^ 11
  let frac : Nat := u % 2 ^ 52
  if exp = 0 then
    sign * Float.ofNat frac * Float.pow 2.0 (Float.ofInt (-1074))
  else if exp = 2047 then
    if frac = 0 then sign * (1.0 / 0.0) else (0.0 / 0.0)
  else
    sign * Float.ofNat (2 ^ 52 + frac) * Float.pow 2.0 (Float.ofInt ((exp : Int) - 1075))

/-- `decode_utf16_le`: pair bytes little-endian, decode UTF-16. -/
def decode_utf16_le (bytes : List Nat) : Result (List Char) :=
  match utf16ToChars (toU16LE bytes) with
  | some cs => .ok cs
  | none => .error (.utf16Decode "invalid utf-16")

/-- `strip_lowercase_prefix`: drop a leading run of lowercase letters and
underscores (ASCII approximation of `char::is_lowercase`; every name the
reader feeds through here is ASCII). -/
def stripLowercaseLead (s : String) : String :=
  String.mk (s.data.dropWhile (fun c => c.isLower ∨ c = '_'))

/-- `looks_like_clx_lite`: heuristic nested-CLX detection on a byte-array
payload. -/
def looks_like_clx_lite (data : List Nat) : Bool :=
  if data.length < 2 then false
  else
    let data_type := data.getD 0 0
    let name_length := data.getD 1 0
    if data_type = clx_types.COMPRESS then true
    else if ¬ (1 ≤ data_type ∧ data_type ≤ 11) then false
    else if name_length ≤ 1 then false
    else
      let name_bytes := name_length * 2
      let header_and_name := 2 + name_bytes
      if data.length < header_and_name then false
      else
        let name_end := 2 + name_bytes
        slice data (name_end - 2) 2 = [0, 0]

/-- `ClxLiteParser::read_chunk_header`: data type byte (as `i8`), name
length, then the UTF-16LE name (skipped for Compress records).  Returns
((name, data type byte), new position). -/
def read_chunk_header (strip : Bool) (data : List Nat) (pos : Nat) :
    Result ((String × Nat) × Nat) := do
  let dt ← readU8 data pos
  let name_length ← readU8 data (pos + 1)
  if toI8 dt = (clx_types.DEPRECATED : Int) ∨ toI8 dt = (clx_types.UNKNOWN : Int) then
    throw (.clxParse "Unknown data type in metadata header")
  if toI8 dt = (clx_types.COMPRESS : Int) then
    return (("", dt), pos + 2)
  else
    match takeExact data (pos + 2) (name_length * 2) with
    | none => throw .io
    | some name_bytes => do
      let cs ← decode_utf16_le name_bytes
      let name := String.mk (trimTrailingNul cs)
      let name := if strip then stripLowercaseLead name else name
      return ((name, dt), pos + 2 + name_length * 2)

/-- `ClxLiteParser::read_utf16_string`'s byte-collection loop: read byte
pairs (terminator included) until `00 00`.  Each step consumes two bytes,
so `data.length + 1` steps always complete the loop; the structural
counter makes the definition kernel-reducible. -/
def readUtf16StrBytesGo (data : List Nat) (steps pos : Nat) :
    Result (List Nat × Nat) :=
  match steps with
  | 0 => .error .io
  | steps' + 1 =>
    if pos + 1 < data.length then
      let b1 := data.getD pos 0
      let b2 := data.getD (pos + 1) 0
      if b1 = 0 ∧ b2 = 0 then .ok ([b1, b2], pos + 2)
      else
        match readUtf16StrBytesGo data steps' (pos + 2) with
        | .ok (bs, p) => .ok (b1 :: b2 :: bs, p)
        | .error e => .error e
    else .error .io

def readUtf16StrBytes (data : List Nat) (pos : Nat) : Result (List Nat × Nat) :=
  readUtf16StrBytesGo data (data.length + 1) pos

/-- The list-promotion step at the end of `read_level` (clx_lite.rs lines
208-217): a decoded Object with a single `""` entry resolves to that
entry's value (whatever it is); any other value is left unchanged. -/
def level_promote (value : ClxValue) : ClxValue :=
  match value with
  | .object m =>
    if m.length = 1 ∧ hasKey m "" then
      match getVal m "" with
      | some arr => arr
      | none => .object m
    else .object m
  | v => v

/-- The empty-name coalescing step of `parse_with_count` (clx_lite.rs
lines 120-132). -/
def insert_entry (output : List (String × ClxValue)) (name : String)
    (value : ClxValue) : List (String × ClxValue) :=
  if name = "" then
    match getVal output "" with
    | some (.array arr) => insertAL output "" (.array (arr ++ [value]))
    | some existing => insertAL (removeAL output "") "" (.array [existing, value])
    | none => insertAL output "" value
  else insertAL output name value

mutual

/-- `ClxLiteParser::parse_with_count`: decode `count` records starting at
`pos`, accumulating an Object; stops early on a `0xFF` sentinel type.
The structural fuel (decremented at every entry, so that the kernel can
reduce the definition) bounds the total number of decoding steps; every
claim below supplies ample fuel for its input. -/
def parseRecords (strip : Bool) (zlib : Zlib) (fuel : Nat) (data : List Nat)
    (count pos : Nat) (output : List (String × ClxValue)) :
    Result (ClxValue × Nat) :=
  match fuel with
  | 0 => .error (.clxParse "recursion limit")
  | f + 1 =>
    match count with
    | 0 => .ok (.object output, pos)
    | count' + 1 =>
    match read_chunk_header strip data pos with
    | .error e => .error e
    | .ok ((name, dt), pos') =>
      if toI8 dt = -1 then .ok (.object output, pos')
      else if dt = clx_types.COMPRESS then
        -- skip 10 bytes, read to end, decompress, reparse from scratch
        let compressed := data.drop (pos' + 10)
        match zlib compressed with
        | .error e => .error (.decompression e)
        | .ok decompressed =>
          match parseClx strip zlib f decompressed with
          | .ok v => .ok (v, data.length)
          | .error e => .error e
      else
        let step : Result (ClxValue × Nat) :=
          if dt = clx_types.BOOL then
            (readU8 data pos').map (fun b => (.bool (b ≠ 0), pos' + 1))
          else if dt = clx_types.INT32 then
            (readLE data pos' 4).map (fun u => (.int (toSigned u 32), pos' + 4))
          else if dt = clx_types.UINT32 then
            (readLE data pos' 4).map (fun u => (.uint u, pos' + 4))
          else if dt = clx_types.INT64 then
            (readLE data pos' 8).map (fun u => (.int (toSigned u 64), pos' + 8))
          else if dt = clx_types.UINT64 then
            (readLE data pos' 8).map (fun u => (.uint u, pos' + 8))
          else if dt = clx_types.DOUBLE then
            (readLE data pos' 8).map (fun u => (.float (floatOfBits u), pos' + 8))
          else if dt = clx_types.VOID_POINTER then
            (readLE data pos' 8).map (fun u => (.uint u, pos' + 8))
          else if dt = clx_types.STRING then
            match readUtf16StrBytes data pos' with
            | .error e => .error e
            | .ok (bytes, p) =>
              match decode_utf16_le bytes with
              | .error e => .error e
              | .ok cs => .ok (.string (String.mk (trimTrailingNul cs)), p)
          else if dt = clx_types.BYTE_ARRAY then
            readByteArrayClx strip zlib f data pos'
          else if dt = clx_types.LEVEL then
            readLevel strip zlib f data pos'
          else .error (.unsupportedClxType dt)
        match step with
        | .error e => .error e
        | .ok (value, pos'') =>
          parseRecords strip zlib f data count' pos'' (insert_entry output name value)
termination_by structural fuel

/-- `ClxLiteParser::read_byte_array`: u64 size, raw payload, optional
nested-CLX substitution (failures fall back to the raw bytes). -/
def readByteArrayClx (strip : Bool) (zlib : Zlib) (fuel : Nat) (data : List Nat)
    (pos : Nat) : Result (ClxValue × Nat) :=
  match fuel with
  | 0 => .error (.clxParse "recursion limit")
  | f + 1 =>
    match readLE data pos 8 with
    | .error e => .error e
    | .ok size =>
      match takeExact data (pos + 8) size with
      | none => .error .io
      | some bytes =>
        let pos' := pos + 8 + size
        if looks_like_clx_lite bytes then
          match parseClx strip zlib f bytes with
          | .ok nested => .ok (nested, pos')
          | .error _ => .ok (.byteArray bytes, pos')
        else .ok (.byteArray bytes, pos')
termination_by structural fuel

/-- `ClxLiteParser::read_level`: u32 item count, u64 length, nested
records, then the discarded offset table; finally list-promotion. -/
def readLevel (strip : Bool) (zlib : Zlib) (fuel : Nat) (data : List Nat)
    (pos : Nat) : Result (ClxValue × Nat) :=
  match fuel with
  | 0 => .error (.clxParse "recursion limit")
  | f + 1 =>
    match readLE data pos 4 with
    | .error e => .error e
    | .ok item_count =>
      match readLE data (pos + 4) 8 with
      | .error e => .error e
      | .ok _length =>
        match parseRecords strip zlib f data item_count (pos + 12) [] with
        | .error e => .error e
        | .ok (value, pos') => .ok (level_promote value, pos' + item_count * 8)
termination_by structural fuel

/-- `ClxLiteParser::parse`: decode a whole buffer (`parse_with_count`
with count 1, from position 0). -/
def parseClx (strip : Bool) (zlib : Zlib) (fuel : Nat) (data : List Nat) :
    Result ClxValue :=
  match fuel with
  | 0 => .error (.clxParse "recursion limit")
  | f + 1 =>
    match parseRecords strip zlib f data 1 0 [] with
    | .ok (v, _) => .ok v
    | .error e => .error e
termination_by structural fuel

end

/-! ## Metadata interpreter: attributes (`metadata/attributes.rs`) -/

/-- The `get_u32`/`get_opt_u32` lookup of `parse_attributes`: try the key,
then the `_u32` / `_i32` suffixed variants; accept `UInt` or `Int` CLX
values, reinterpreting as `u64` then truncating to `u32`. -/
def attr_get_u32 (obj : List (String × ClxValue)) (key : String) : Option Nat :=
  ((getVal obj key).orElse (fun _ => getVal obj (key ++ "_u32"))).orElse
      (fun _ => getVal obj (key ++ "_i32"))
    |>.bind (fun v =>
      (v.as_u64).orElse (fun _ => v.as_i64.map (fun i => (i % (2 ^ 64 : Int)).toNat)))
    |>.map (fun v => v % 2 ^ 32)

/-- The field extraction of `parse_attributes` once the inner
`SLxImageAttributes` object has been located: the five required `u32`
fields fail with `MetadataParse` when absent (in source order), the rest
are optional. -/
def parse_attributes_fields (obj : List (String × ClxValue)) : Result Attributes :=
  let get_opt_f64 : String → Option Float := fun key =>
    (getVal obj key).bind ClxValue.as_f64
  let pixel_data_type :=
    match (getVal obj "uiCompBPC").bind ClxValue.as_u64 with
    | some v => if v = 3 then PixelDataType.float else PixelDataType.unsigned
    | none => PixelDataType.unsigned
  let compression_type :=
    ((getVal obj "eCompression").bind ClxValue.as_str).map (fun s =>
      if s = "lossless" then CompressionType.lossless
      else if s = "lossy" then CompressionType.lossy
      else CompressionType.none)
  match attr_get_u32 obj "uiBpcInMemory" with
  | none => .error (.metadataParse "Missing or invalid uiBpcInMemory")
  | some bpcm =>
  match attr_get_u32 obj "uiBpcSignificant" with
  | none => .error (.metadataParse "Missing or invalid uiBpcSignificant")
  | some bpcs =>
  match attr_get_u32 obj "uiComp" with
  | none => .error (.metadataParse "Missing or invalid uiComp")
  | some comp =>
  match attr_get_u32 obj "uiHeight" with
  | none => .error (.metadataParse "Missing or invalid uiHeight")
  | some height =>
  match attr_get_u32 obj "uiSequenceCount" with
  | none => .error (.metadataParse "Missing or invalid uiSequenceCount")
  | some seqc =>
  .ok {
    bits_per_component_in_memory := bpcm
    bits_per_component_significant := bpcs
    component_count := comp
    height_px := height
    pixel_data_type := pixel_data_type
    sequence_count := seqc
    width_bytes := attr_get_u32 obj "uiWidthBytes"
    width_px := attr_get_u32 obj "uiWidth"
    compression_level := get_opt_f64 "dCompressionParam"
    compression_type := compression_type
    tile_height_px := attr_get_u32 obj "uiTileHeight"
    tile_width_px := attr_get_u32 obj "uiTileWidth"
    channel_count := attr_get_u32 obj "uiChannelCount" }

/-- `parse_attributes`: requires the object to sit under an
`SLxImageAttributes` key of the root object (`.get(..).and_then(|v|
v.as_object()).ok_or(..)`), then extracts the fields. -/
def parse_attributes (clx : ClxValue) : Result Attributes :=
  match clx.as_object with
  | none => .error (.metadataParse "Expected object for attributes")
  | some root =>
    match getVal root "SLxImageAttributes" with
    | some (ClxValue.object obj) => parse_attributes_fields obj
    | _ => .error (.metadataParse "Missing SLxImageAttributes object")

/-! ## Metadata interpreter: text info (`metadata/text_info.rs`) -/

def parse_text_info (clx : ClxValue) : Result TextInfo :=
  match clx.as_object with
  | none => .ok {}
  | some obj =>
    let get_str : String → Option String := fun key =>
      (getVal obj key).bind ClxValue.as_str
    .ok {
      image_id := get_str "ImageId"
      info_type := get_str "Type"
      group := get_str "Group"
      sample_id := get_str "SampleId"
      author := get_str "Author"
      description := get_str "Description"
      capturing := get_str "Capturing"
      sampling := get_str "Sampling"
      location := get_str "Location"
      date := get_str "Date"
      conclusion := get_str "Conclusion"
      info1 := get_str "Info1"
      info2 := get_str "Info2"
      optics := get_str "Optics"
      app_version := get_str "AppVersion" }

/-! ## Metadata interpreter: experiment (`metadata/experiment.rs`) -/

mutual

/-- Structural size of a CLX value, used to justify the single-item
unwrapping fixpoint. -/
def csize : ClxValue → Nat
  | .object m => 1 + csizeObj m
  | .array a => 1 + csizeArr a
  | _ => 1

def csizeObj : List (String × ClxValue) → Nat
  | [] => 0
  | (_, v) :: rest => 1 + csize v + csizeObj rest

def csizeArr : List ClxValue → Nat
  | [] => 0
  | v :: rest => 1 + csize v + csizeArr rest

end

/-- The unwrapping loop of `unwrap_single_item`.  Each unwrap step moves
to a strict subvalue, so `csize v` steps always reach the fixed point;
the structural counter makes the definition kernel-reducible. -/
def unwrapGo (steps : Nat) (v : ClxValue) : ClxValue :=
  match steps with
  | 0 => v
  | steps' + 1 =>
    match v with
    | .array [x] => unwrapGo steps' x
    | .object m =>
      if m.length = 1 then
        match ((getVal m "").orElse (fun _ => getVal m "i0000000000")).orElse
            (fun _ => getVal m "SLxExperiment") with
        | some n => unwrapGo steps' n
        | none => v
      else v
    | _ => v

/-- `unwrap_single_item`: repeatedly unwrap one-element arrays and
single-entry envelope objects keyed `""`, `"i0000000000"` or
`"SLxExperiment"`. -/
def unwrap_single_item (v : ClxValue) : ClxValue :=
  unwrapGo (csize v) v

/-- Numeric-coercion helpers of `experiment.rs`. -/
def value_as_u32 (v : ClxValue) : Option Nat :=
  (v.as_u64.map (fun u => u % 2 ^ 32)).orElse (fun _ =>
    v.as_i64.bind (fun i => if 0 ≤ i then some (i.toNat % 2 ^ 32) else none))

def value_as_f64 (v : ClxValue) : Option Float :=
  ((v.as_f64).orElse (fun _ => v.as_u64.map Float.ofNat)).orElse
    (fun _ => v.as_i64.map Float.ofInt)

def value_as_bool (v : ClxValue) : Option Bool :=
  ((v.as_bool).orElse (fun _ => v.as_u64.map (fun u => u ≠ 0))).orElse
    (fun _ => v.as_i64.map (fun i => i ≠ 0))

def map_get_u32 (m : List (String × ClxValue)) (key : String) : Option Nat :=
  (getVal m key).bind value_as_u32

def map_get_f64 (m : List (String × ClxValue)) (key : String) : Option Float :=
  (getVal m key).bind value_as_f64

def map_get_bool (m : List (String × ClxValue)) (key : String) : Option Bool :=
  (getVal m key).bind value_as_bool

/-- `keys.sort()` over an object's keys (byte-lexicographic, which for
UTF-8 agrees with Lean's code-point order). -/
def sortedKeys (m : List (String × ClxValue)) : List String :=
  (m.map Prod.fst).mergeSort (fun a b => a ≤ b)

/-- Iteration order over `pItemValid` / `pPeriod` / `Points` containers:
arrays in order, objects by sorted key. -/
def containerItems (v : ClxValue) : List ClxValue :=
  match v with
  | .array arr => arr
  | .object m => (sortedKeys m).filterMap (getVal m)
  | _ => []

/-- `f64 as u32` (saturating cast used for `dZHome`). -/
def floatToU32 (v : Float) : Nat := v.toUInt32.toNat

/-- One point of an `XYPosLoop` (the body of the `Points` walk). -/
def parse_position (is_setting_z : Bool) (ref_x ref_y : Float)
    (pos_item : ClxValue) : Option Position :=
  match (unwrap_single_item pos_item).as_object with
  | none => none
  | some pos_obj =>
    let x := ref_x + (map_get_f64 pos_obj "dPosX").getD 0.0
    let y := ref_y + (map_get_f64 pos_obj "dPosY").getD 0.0
    let z := if is_setting_z then (map_get_f64 pos_obj "dPosZ").getD 0.0 else 0.0
    let pfs := (map_get_f64 pos_obj "dPFSOffset").bind
      (fun v => if 0.0 ≤ v then some v else none)
    let name := (((getVal pos_obj "dPosName").orElse
        (fun _ => getVal pos_obj "pPosName")).orElse
        (fun _ => getVal pos_obj "wszName")).bind ClxValue.as_str
    some { stage_position_um := ⟨x, y, z⟩, pfs_offset := pfs, name := name }

/-- The validity filter on an enumerated item (`!valid.is_empty() && (i >=
valid.len() || !valid[i])` skips the item). -/
def validSkips (valid : List Bool) (i : Nat) : Bool :=
  ¬ valid = [] ∧ (valid.length ≤ i ∨ valid.getD i false = false)

/-- One period of an `NETimeLoop` (the body of the `pPeriod` walk);
periods with count 0 are skipped. -/
def parse_period (period_item : ClxValue) : Option PeriodT :=
  match period_item.as_object with
  | none => none
  | some period_obj =>
    let count := (map_get_u32 period_obj "uiCount").getD 0
    if count = 0 then none
    else some {
      count := count
      start_ms := (map_get_f64 period_obj "dStart").getD 0.0
      period_ms := ((map_get_f64 period_obj "dPeriod").orElse
        (fun _ => map_get_f64 period_obj "dAvgPeriodDiff")).getD 0.0
      duration_ms := (map_get_f64 period_obj "dDuration").getD 0.0
      period_diff := none }

/-- `parse_single_loop`: dispatch on `uiLoopType`/`eType`.  The source
signature is `Result<Option<ExpLoop>>` but every return is `Ok`, so the
embedding returns the `Option` directly. -/
def parse_single_loop (obj : List (String × ClxValue)) : Option ExpLoop :=
  let loop_type := (map_get_u32 obj "uiLoopType").orElse (fun _ => map_get_u32 obj "eType")
  let nesting_level := (map_get_u32 obj "uiNestingLevel").getD 0
  let loop_pars0 := (getVal obj "uLoopPars").bind ClxValue.as_object
  let loop_pars := match loop_pars0 with
    | some pars =>
      if pars.length = 1 then
        match (getVal pars "i0000000000").bind ClxValue.as_object with
        | some inner => some inner
        | none => some pars
      else some pars
    | none => none
  let params := loop_pars.getD obj
  let loop_count := ((map_get_u32 params "uiCount").orElse
    (fun _ => map_get_u32 obj "uiCount")).getD 0
  match loop_type with
  | some 1 =>
    -- TimeLoop
    if loop_count = 0 then none
    else some (.timeLoop {
      count := loop_count
      nesting_level := nesting_level
      parameters := {
        start_ms := (map_get_f64 params "dStart").getD 0.0
        period_ms := (map_get_f64 params "dPeriod").getD 0.0
        duration_ms := (map_get_f64 params "dDuration").getD 0.0
        period_diff := none } })
  | some 4 =>
    -- ZStackLoop
    if loop_count = 0 then none
    else some (.zStackLoop {
      count := loop_count
      nesting_level := nesting_level
      parameters := {
        home_index := (((map_get_u32 params "uiHomeIndex").orElse
          (fun _ => (map_get_f64 params "dZHome").map floatToU32)).map
            (fun v => toSigned v 32)).getD 0
        step_um := (map_get_f64 params "dZStep").getD 0.0
        bottom_to_top := ((map_get_bool params "bBottomToTop").orElse
          (fun _ => (map_get_u32 params "iType").map (fun v => v < 4))).getD false
        device_name := (((getVal params "wsZDevice").orElse
          (fun _ => getVal params "pPeriod")).bind ClxValue.as_str) } })
  | some 2 =>
    -- XYPosLoop
    let is_setting_z := (((map_get_bool params "bUseZ").orElse
      (fun _ => map_get_bool params "bIsSettingZ")).orElse
      (fun _ => map_get_bool obj "bIsSettingZ")).getD false
    let rel_xy := (map_get_bool params "bRelativeXY").getD false
    let ref_x := if rel_xy then (map_get_f64 params "dReferenceX").getD 0.0 else 0.0
    let ref_y := if rel_xy then (map_get_f64 params "dReferenceY").getD 0.0 else 0.0
    let valid : List Bool := ((getVal obj "pItemValid").bind (fun v =>
      match v with
      | .object m => some (((sortedKeys m).filterMap (getVal m)).map
          (fun x => (value_as_bool x).getD true))
      | .array arr => some (arr.map (fun x => (value_as_bool x).getD true))
      | .byteArray bytes => some (bytes.map (fun b => b ≠ 0))
      | _ => none)).getD []
    let pos_list := ((getVal params "Points").orElse
      (fun _ => getVal params "pPeriod")).orElse (fun _ => getVal obj "pPeriod")
    let points : List Position := match pos_list with
      | none => []
      | some pl =>
        (containerItems pl).enum.filterMap (fun p =>
          if validSkips valid p.1 then none
          else parse_position is_setting_z ref_x ref_y p.2)
    let count := if points.isEmpty then loop_count else points.length
    some (.xyPosLoop {
      count := count
      nesting_level := nesting_level
      parameters := { is_setting_z := is_setting_z, points := points } })
  | some 8 =>
    -- NETimeLoop
    let valid : List Bool := ((getVal params "pPeriodValid").bind (fun v =>
      match v with
      | .object m => some (((sortedKeys m).filterMap (getVal m)).map
          (fun x => (value_as_bool x).getD true))
      | .array arr => some (arr.map (fun x => (value_as_bool x).getD true))
      | _ => none)).getD []
    let periods : List PeriodT := match getVal params "pPeriod" with
      | none => []
      | some period_src =>
        (containerItems period_src).enum.filterMap (fun p =>
          if validSkips valid p.1 then none
          else parse_period p.2)
    let count := (periods.map PeriodT.count).sum
    some (.neTimeLoop {
      count := count
      nesting_level := nesting_level
      parameters := { periods := periods } })
  | some 7 =>
    some (.customLoop { count := loop_count, nesting_level := nesting_level })
  | _ => none

mutual

/-- `parse_experiment_inner`: interpret one loop descriptor, then recurse
into `ppNextLevelEx` (array, sorted-key object, or a single inline loop
object).  Fuel bounds the nesting depth (≤ 4 in practice). -/
def parse_experiment_inner (fuel : Nat) (clx : ClxValue) (dest : List ExpLoop) :
    Result (List ExpLoop) :=
  match fuel with
  | 0 => .error (.metadataParse "recursion limit")
  | f + 1 =>
    let clx := unwrap_single_item clx
    match clx.as_object with
    | none => .ok dest
    | some obj =>
      let dest' := match parse_single_loop obj with
        | some exp_loop => if exp_loop.count > 0 then dest ++ [exp_loop] else dest
        | none => dest
      match getVal obj "ppNextLevelEx" with
      | none => .ok dest'
      | some next_level =>
        let items : List ClxValue := match next_level with
          | .array arr => arr
          | .object m =>
            if hasKey m "eType" ∨ hasKey m "uiLoopType" then [next_level]
            else (sortedKeys m).filterMap (getVal m)
          | _ => []
        parse_next_items f items dest'
termination_by structural fuel

/-- The `for item in items` walk of `parse_experiment_inner`. -/
def parse_next_items (fuel : Nat) (items : List ClxValue) (dest : List ExpLoop) :
    Result (List ExpLoop) :=
  match fuel with
  | 0 => .error (.metadataParse "recursion limit")
  | f + 1 =>
    match items with
    | [] => .ok dest
    | item :: rest =>
      match parse_experiment_inner f (unwrap_single_item item) dest with
      | .error e => .error e
      | .ok dest' => parse_next_items f rest dest'
termination_by structural fuel

end

/-- `parse_experiment`: unwrap envelopes, then walk the loop tree. -/
def parse_experiment (fuel : Nat) (clx : ClxValue) : Result (List ExpLoop) :=
  parse_experiment_inner fuel (unwrap_single_item clx) []

/-! ## Axis resolver (`reader.rs::sizes`, `coord_axis_order`,
`loop_indices`, `seq_index_from_coords`)

The Rust methods fetch the cached attributes and experiment and operate
on those; the embedding takes the parsed values directly. -/

def AXIS_T : String := "T"
def AXIS_P : String := "P"
def AXIS_C : String := "C"
def AXIS_Z : String := "Z"
def AXIS_Y : String := "Y"
def AXIS_X : String := "X"

/-- The per-loop insertion of `sizes` (reader.rs lines 181-197). -/
def sizes_loop_insert (m : List (String × Nat)) (l : ExpLoop) : List (String × Nat) :=
  match l with
  | .timeLoop t => insertAL m AXIS_T t.count
  | .xyPosLoop xy => insertAL m AXIS_P xy.count
  | .zStackLoop z => insertAL m AXIS_Z z.count
  | .neTimeLoop n => insertAL m AXIS_T n.count
  | .customLoop _ => m

/-- The per-loop axis/shape push of `coord_axis_order` (reader.rs lines
333-353). -/
def axis_push (acc : List String × List Nat) (l : ExpLoop) : List String × List Nat :=
  match l with
  | .timeLoop t => (acc.1 ++ [AXIS_T], acc.2 ++ [t.count])
  | .neTimeLoop n => (acc.1 ++ [AXIS_T], acc.2 ++ [n.count])
  | .xyPosLoop xy => (acc.1 ++ [AXIS_P], acc.2 ++ [xy.count])
  | .zStackLoop z => (acc.1 ++ [AXIS_Z], acc.2 ++ [z.count])
  | .customLoop _ => acc

/-- `Nd2File::sizes`.  Returns `none` exactly where the source panics:
the derived-width divisor `(bpc_in_memory / 8) * component_count` is zero
while `width_bytes` is present (the closure argument of `Option::or` is
evaluated eagerly). -/
def sizes (attrs : Attributes) (exp : List ExpLoop) :
    Option (List (String × Nat)) :=
  let n_chan := attrs.channel_count.getD attrs.component_count
  let height := attrs.height_px
  let derived : Option (Option Nat) := match attrs.width_bytes with
    | some w =>
      let d := (attrs.bits_per_component_in_memory / 8) * attrs.component_count
      if d = 0 then none else some (some (w / d))
    | none => some none
  match derived with
  | none => none
  | some derivedWidth =>
    let width := (attrs.width_px.or derivedWidth).getD 0
    let base : List (String × Nat) :=
      if exp.isEmpty then
        let total := attrs.sequence_count
        let n_z := 1
        let n_pos := 1
        let n_time := total / (max (n_pos * n_chan * n_z) 1)
        insertAL (insertAL (insertAL (insertAL [] AXIS_P n_pos) AXIS_T n_time)
          AXIS_C n_chan) AXIS_Z n_z
      else
        let m := exp.foldl sizes_loop_insert []
        let m := if hasKey m AXIS_C then m else insertAL m AXIS_C n_chan
        let m := if hasKey m AXIS_P then m else insertAL m AXIS_P 1
        let m := if hasKey m AXIS_T then m else insertAL m AXIS_T 1
        let m := if hasKey m AXIS_Z then m else insertAL m AXIS_Z 1
        m
    some (insertAL (insertAL base AXIS_Y height) AXIS_X width)

/-- `Nd2File::coord_axis_order`: axis order (outer to inner, then C, then
missing axes at size 1) and the parallel coordinate shape. -/
def coord_axis_order (attrs : Attributes) (exp : List ExpLoop) :
    List String × List Nat :=
  let n_chan := attrs.channel_count.getD attrs.component_count
  if exp.isEmpty then
    let n_z := 1
    let n_pos := 1
    let total := attrs.sequence_count
    let n_time := total / (max (n_pos * n_chan * n_z) 1)
    ([AXIS_P, AXIS_T, AXIS_C, AXIS_Z], [n_pos, n_time, n_chan, n_z])
  else
    let acc := exp.foldl axis_push ([], [])
    let acc := (acc.1 ++ [AXIS_C], acc.2 ++ [n_chan])
    let acc := if acc.1.contains AXIS_P then acc else (acc.1 ++ [AXIS_P], acc.2 ++ [1])
    let acc := if acc.1.contains AXIS_T then acc else (acc.1 ++ [AXIS_T], acc.2 ++ [1])
    let acc := if acc.1.contains AXIS_Z then acc else (acc.1 ++ [AXIS_Z], acc.2 ++ [1])
    acc

/-- The per-sequence-index unravelling loop of `loop_indices` (`for i in
(0..n).rev()`), walking the (axis, dimension) pairs from the innermost
axis outwards while dividing the index down. -/
def unravel_rev : List (String × Nat) → Nat → List (String × Nat)
  | [], _ => []
  | (ax, d) :: rest, idx => (ax, idx % d) :: unravel_rev rest (idx / d)

/-- One coordinate map of `loop_indices`: unravel `seq` (innermost axis
fastest) and insert into a map, outer axes inserted last. -/
def loop_indices_entry (axis_order : List String) (coord_shape : List Nat)
    (seq : Nat) : List (String × Nat) :=
  (unravel_rev ((axis_order.zip coord_shape).reverse) seq).foldl
    (fun m p => insertAL m p.1 p.2) []

/-- `Nd2File::loop_indices`: one coordinate map per sequence index. -/
def loop_indices (attrs : Attributes) (exp : List ExpLoop) :
    List (List (String × Nat)) :=
  let axis_order := (coord_axis_order attrs exp).1
  let coord_shape := (coord_axis_order attrs exp).2
  let total := coord_shape.prod
  (List.range total).map (loop_indices_entry axis_order coord_shape)

/-- `Nd2File::seq_index_from_coords`: map each axis name to the supplied
coordinate and ravel (`seq += coord[i] * stride; stride *= shape[i]` from
the innermost axis outwards). -/
def seq_index_from_coords (attrs : Attributes) (exp : List ExpLoop)
    (p t c z : Nat) : Result Nat :=
  let axis_order := (coord_axis_order attrs exp).1
  let coord_shape := (coord_axis_order attrs exp).2
  let coords := axis_order.map (fun ax =>
    if ax = AXIS_P then p
    else if ax = AXIS_T then t
    else if ax = AXIS_C then c
    else if ax = AXIS_Z then z
    else 0)
  if coords.length ≠ coord_shape.length then
    .error (.invalidFormat "Coord/axis length mismatch")
  else
    .ok ((((coords.zip coord_shape).reverse).foldl
      (fun (st : Nat × Nat) cd => (st.1 + cd.1 * st.2, st.2 * cd.2)) (0, 1)).1)

/-! ## Frame decoder (`reader.rs::read_frame`) -/

/-- The interleaved-to-planar repack loop of `read_frame`: source order
`[y][x][channel][component]`, destination order planar (C,Y,X).  All
reachable indices are in bounds (proved below), so `setD`/`getD` coincide
with the source's panicking indexing. -/
def repack (h w n_c n_comp : Nat) (pixels : List Nat) : Array Nat :=
  (List.range h).foldl (fun out y =>
    (List.range w).foldl (fun out x =>
      (List.range n_c).foldl (fun out c =>
        (List.range n_comp).foldl (fun out comp =>
          let src_idx := y * w * n_c * n_comp + x * n_c * n_comp + c * n_comp + comp
          let dst_idx := (c * n_comp + comp) * (h * w) + y * w + x
          out.setD dst_idx (pixels.getD src_idx 0)) out) out) out)
    (Array.mkArray (h * w * n_c * n_comp) 0)

/-- `Nd2File::read_frame` applied to the raw `ImageDataSeq|N!` chunk
bytes.  The lossless branch slices `data[8..]`, which panics in the
source when the chunk is shorter than 8 bytes; that panic is modelled as
an explicit error. -/
def read_frame (zlib : Zlib) (attrs : Attributes) (data : List Nat) :
    Result (List Nat) :=
  let h := attrs.height_px
  let w := attrs.width_px.getD 0
  let nc_ncomp : Nat × Nat := match attrs.channel_count with
    | some ch =>
      if ch > 0 then (ch, attrs.component_count / ch)
      else (attrs.component_count, 1)
    | none => (attrs.component_count, 1)
  let n_c := nc_ncomp.1
  let n_comp := nc_ncomp.2
  let frame_size := h * w * n_c * n_comp
  let expected_raw := frame_size * (attrs.bits_per_component_in_memory / 8)
  let pixel_bytes_r : Result (List Nat) :=
    if attrs.compression_type = some CompressionType.lossless then
      if data.length < 8 then
        .error (.invalidFormat "slice index out of range")
      else
        match zlib (data.drop 8) with
        | .ok d => .ok d
        | .error _ => .error Nd2Error.io
    else if data.length = expected_raw then .ok data
    else if 8 ≤ data.length ∧ data.length - 8 = expected_raw then .ok (data.drop 8)
    else .ok data
  match pixel_bytes_r with
  | .error e => .error e
  | .ok pixel_bytes =>
    if pixel_bytes.length / 2 < frame_size then
      .error (.invalidFormat "Frame: byte count below expected pixel count")
    else
      let pixels := toU16LE pixel_bytes
      if pixels.length < frame_size then
        .error (.invalidFormat "Frame: pixel count below expected")
      else
        .ok ((repack h w n_c n_comp pixels).toList)

/-! ## Reader facade (`reader.rs::Nd2File`) -/

/-- The facade state: backing byte source, version, chunkmap, and the
three memoised metadata slots. -/
structure Nd2File : Type where
  file : List Nat
  version : Nat × Nat
  chunkmap : ChunkMap
  attributes : Option Attributes
  experiment : Option (List ExpLoop)
  text_info : Option TextInfo

/-- `Nd2File::open`: read and validate the header, check the major
version is 2 or 3, read the chunkmap, start with empty caches. -/
def Nd2File.openFile (file : List Nat) : Result Nd2File :=
  match read_version file with
  | .error e => .error e
  | .ok version =>
    if version.1 < 2 ∨ version.1 > 3 then
      .error (.unsupportedVersion version.1 version.2)
    else
      match read_chunkmap file with
      | .error e => .error e
      | .ok chunkmap =>
        .ok {
          file := file
          version := version
          chunkmap := chunkmap
          attributes := none
          experiment := none
          text_info := none }

/-- Version-dependent metadata chunk names (reader.rs lines 72-76,
88-92, 123-127). -/
def Nd2File.attributesChunkName (f : Nd2File) : List Nat :=
  if f.version.1 ≥ 3 then strBytes "ImageAttributesLV!" else strBytes "ImageAttributes!"

def Nd2File.experimentChunkName (f : Nd2File) : List Nat :=
  if f.version.1 ≥ 3 then strBytes "ImageMetadataLV!" else strBytes "ImageMetadata!"

def Nd2File.textInfoChunkName (f : Nd2File) : List Nat :=
  if f.version.1 ≥ 3 then strBytes "ImageTextInfoLV!" else strBytes "ImageTextInfo!"

/-- `Nd2File::attributes` (state-threading model of the `&mut self`
method): on a cache miss read and parse the chunk, caching only on
success; every error path leaves the state untouched. -/
def Nd2File.attributesM (zlib : Zlib) (fuel : Nat) (f : Nd2File) :
    Result Attributes × Nd2File :=
  match f.attributes with
  | some v => (.ok v, f)
  | none =>
    match read_chunk f.file f.chunkmap (Nd2File.attributesChunkName f) with
    | .error e => (.error e, f)
    | .ok data =>
      match parseClx false zlib fuel data with
      | .error e => (.error e, f)
      | .ok clx =>
        match parse_attributes clx with
        | .error e => (.error e, f)
        | .ok v => (.ok v, { f with attributes := some v })

/-- `Nd2File::experiment`: a missing chunk caches an empty list; parse
errors from `parse_experiment` are swallowed (`unwrap_or_default`), and
v3 retries on the raw tree when the unwrapped parse is empty. -/
def Nd2File.experimentM (zlib : Zlib) (fuel : Nat) (f : Nd2File) :
    Result (List ExpLoop) × Nd2File :=
  match f.experiment with
  | some v => (.ok v, f)
  | none =>
    let chunk_name := Nd2File.experimentChunkName f
    if hasKey f.chunkmap chunk_name = false then
      (.ok [], { f with experiment := some [] })
    else
      match read_chunk f.file f.chunkmap chunk_name with
      | .error e => (.error e, f)
      | .ok data =>
        match parseClx false zlib fuel data with
        | .error e => (.error e, f)
        | .ok clx =>
          let to_parse :=
            if f.version.1 ≥ 3 then
              match clx.as_object.bind (fun o => getVal o "SLxExperiment") with
              | some inner => if inner.as_object.isSome then inner else clx
              | none => clx
            else clx
          let exp := (parse_experiment fuel to_parse).toOption.getD []
          let exp :=
            if exp.isEmpty ∧ f.version.1 ≥ 3 then
              (parse_experiment fuel clx).toOption.getD []
            else exp
          (.ok exp, { f with experiment := some exp })

/-- `Nd2File::text_info`: a missing chunk caches the default value;
other errors propagate without caching. -/
def Nd2File.textInfoM (zlib : Zlib) (fuel : Nat) (f : Nd2File) :
    Result TextInfo × Nd2File :=
  match f.text_info with
  | some v => (.ok v, f)
  | none =>
    let chunk_name := Nd2File.textInfoChunkName f
    if hasKey f.chunkmap chunk_name = false then
      (.ok {}, { f with text_info := some {} })
    else
      match read_chunk f.file f.chunkmap chunk_name with
      | .error e => (.error e, f)
      | .ok data =>
        match parseClx false zlib fuel data with
        | .error e => (.error e, f)
        | .ok clx =>
          match parse_text_info clx with
          | .error e => (.error e, f)
          | .ok v => (.ok v, { f with text_info := some v })

/-- `Nd2File::chunk_names`: strict UTF-8 decode of each raw key,
silently dropping keys that are not valid UTF-8 (`filter_map` over
`String::from_utf8(..).ok()`). -/
def Nd2File.chunk_names (f : Nd2File) : List String :=
  f.chunkmap.filterMap (fun k => stringFromUtf8 k.1)

/-! ## Concrete inputs used by the claims -/

/-- A zlib oracle that always fails; the inputs below never reach a
Compress record, so any oracle gives the same results. -/
def noZlib : Zlib := fun _ => .error "no decompressor"

/-- CLX tree of an experiment with a time loop of count 2 whose
`ppNextLevelEx` nests another time loop of count 3. -/
def clx0 : ClxValue := .object [
  ("uiLoopType", .uint 1), ("uiCount", .uint 2),
  ("ppNextLevelEx", .array [.object [("uiLoopType", .uint 1), ("uiCount", .uint 3)]])]

/-- The loop list `parse_experiment` produces for `clx0`. -/
def exp0 : List ExpLoop :=
  [.timeLoop ⟨2, 0, ⟨0.0, 0.0, 0.0, none⟩⟩, .timeLoop ⟨3, 0, ⟨0.0, 0.0, 0.0, none⟩⟩]

/-- Attributes of a single-channel 1x1 image with 6 frames. -/
def attrs0 : Attributes := {
  bits_per_component_in_memory := 16, bits_per_component_significant := 16,
  component_count := 1, height_px := 1, pixel_data_type := .unsigned,
  sequence_count := 6, width_bytes := none, width_px := some 1,
  compression_level := none, compression_type := none,
  tile_height_px := none, tile_width_px := none, channel_count := none }

/-- A nodup-axis experiment (one time loop, one Z stack) for the
round-trip witness. -/
def expW : List ExpLoop :=
  [.timeLoop ⟨2, 0, ⟨0.0, 0.0, 0.0, none⟩⟩,
   .zStackLoop ⟨3, 0, ⟨0, 0.0, false, none⟩⟩]

/-- Attributes with three components grouped into two channels (so the
channel count does not divide the component count). -/
def attrs1 : Attributes := {
  bits_per_component_in_memory := 16, bits_per_component_significant := 16,
  component_count := 3, height_px := 1, pixel_data_type := .unsigned,
  sequence_count := 1, width_bytes := none, width_px := some 1,
  compression_level := none, compression_type := none,
  tile_height_px := none, tile_width_px := none, channel_count := some 2 }

/-- Attributes with a known width but zero height, zero components and
zero sequence count. -/
def attrs3 : Attributes := {
  bits_per_component_in_memory := 16, bits_per_component_significant := 16,
  component_count := 0, height_px := 0, pixel_data_type := .unsigned,
  sequence_count := 0, width_bytes := none, width_px := some 1,
  compression_level := none, compression_type := none,
  tile_height_px := none, tile_width_px := none, channel_count := none }

/-- Attributes whose width is known only through `width_bytes`: 16 bits
(2 bytes) per component, one component, 4 bytes per row, so the derived
width is 2. -/
def attrs4 : Attributes := {
  bits_per_component_in_memory := 16, bits_per_component_significant := 16,
  component_count := 1, height_px := 1, pixel_data_type := .unsigned,
  sequence_count := 6, width_bytes := some 4, width_px := none,
  compression_level := none, compression_type := none,
  tile_height_px := none, tile_width_px := none, channel_count := none }

/-- CLX bytes: one Level record named `"a"` holding a single empty-named
Int32 record with value 7 (type 11, name length 1, name `a`, item count
1, total length 0, then the inner record). -/
def c4bytes : List Nat := [11, 1, 0x61, 0, 1, 0, 0, 0, 0, 0, 0, 0, 0, 0, 0, 0, 2, 0, 7, 0, 0, 0]

/-- CLX bytes of an empty-named Level holding two empty-named Int32
records (values 1 and 2), followed by its 16-byte offset table; the Level
list-promotes to an Array. -/
def l1bytes : List Nat := [11, 0] ++ [2, 0, 0, 0] ++ [0, 0, 0, 0, 0, 0, 0, 0] ++
  [2, 0, 1, 0, 0, 0] ++ [2, 0, 2, 0, 0, 0] ++ List.replicate 16 0

/-- Three empty-named records whose first value decodes to an Array: the
Level above, then Int32 3 and Int32 4. -/
def c8bytes : List Nat := l1bytes ++ [2, 0, 3, 0, 0, 0] ++ [2, 0, 4, 0, 0, 0]

/-- Three empty-named Int32 records (values 1, 2, 3). -/
def c8ok : List Nat := [2, 0, 1, 0, 0, 0] ++ [2, 0, 2, 0, 0, 0] ++ [2, 0, 3, 0, 0, 0]

/-- The five required attribute fields, sitting directly at the root
(no `SLxImageAttributes` envelope). -/
def c6fields : List (String × ClxValue) := [
  ("uiBpcInMemory", .uint 16), ("uiBpcSignificant", .uint 12), ("uiComp", .uint 1),
  ("uiHeight", .uint 512), ("uiSequenceCount", .uint 10)]

/-- A 112-byte file header that is valid except that the version payload
byte at offset 3 is `'X'`, not an ASCII digit (payload `"VerX.0"`). -/
def c10file : List Nat := [0xDA, 0xCE, 0xBE, 0x0A] ++ [32, 0, 0, 0] ++
  [64, 0, 0, 0, 0, 0, 0, 0] ++ ND2_FILE_SIGNATURE ++ strBytes "VerX.0" ++
  List.replicate 58 0

/-- An open v3 reader over an empty file with an empty chunkmap and cold
caches; every metadata accessor fails on it. -/
def st0 : Nd2File := ⟨[], (3, 0), [], none, none, none⟩

/-- A reader whose chunkmap holds one non-UTF-8 key `[0xFF, '!']`. -/
def st7 : Nd2File := ⟨[], (3, 0), [([255, 33], (0, 0))], none, none, none⟩

/-- A reader whose chunkmap holds one ASCII key `"Image!"`. -/
def st7b : Nd2File := ⟨[], (3, 0), [(strBytes "Image!", (0, 0))], none, none, none⟩

/-! ## Association-list lemmas -/

theorem getVal_insertAL_self {κ α : Type} [DecidableEq κ] (m : List (κ × α))
    (k : κ) (v : α) : getVal (insertAL m k v) k = some v := by
  induction m with
  | nil => simp [insertAL, getVal]
  | cons p rest ih =>
    by_cases h : p.1 = k
    · simp [insertAL, h, getVal]
    · simp [insertAL, h, getVal, ih]

theorem getVal_insertAL_ne {κ α : Type} [DecidableEq κ] (m : List (κ × α))
    (k k' : κ) (v : α) (h : k' ≠ k) :
    getVal (insertAL m k v) k' = getVal m k' := by
  induction m with
  | nil => simp [insertAL, getVal, Ne.symm h]
  | cons p rest ih =>
    by_cases hp : p.1 = k
    · simp [insertAL, hp, getVal, Ne.symm h]
    · simp only [insertAL, if_neg hp, getVal]
      by_cases hp' : p.1 = k'
      · simp [hp']
      · simp [hp', ih]

theorem hasKey_insertAL_self {κ α : Type} [DecidableEq κ] (m : List (κ × α))
    (k : κ) (v : α) : hasKey (insertAL m k v) k = true := by
  induction m with
  | nil => simp [insertAL, hasKey]
  | cons p rest ih =>
    by_cases h : p.1 = k
    · simp [insertAL, h, hasKey]
    · simp [insertAL, h, hasKey, ih]

theorem hasKey_insertAL_of {κ α : Type} [DecidableEq κ] (m : List (κ × α))
    (k k' : κ) (v : α) (h : hasKey m k' = true) :
    hasKey (insertAL m k v) k' = true := by
  induction m with
  | nil => simp [hasKey] at h
  | cons p rest ih =>
    simp only [hasKey] at h
    by_cases hp : p.1 = k
    · by_cases hk : k = k'
      · simp [insertAL, hp, hasKey, hk]
      · rw [hp, if_neg hk] at h
        simp [insertAL, hp, hasKey, hk, h]
    · by_cases hk : p.1 = k'
      · rw [hk] at hp
        simp [insertAL, hp, hasKey, hk]
      · rw [if_neg hk] at h
        simp [insertAL, hp, hasKey, hk, ih h]

theorem length_filterMap_all_some {α β : Type} (g : α → Option β) (l : List α)
    (h : ∀ a ∈ l, (g a).isSome) : (l.filterMap g).length = l.length := by
  induction l with
  | nil => simp
  | cons a rest ih =>
    obtain ⟨b, hb⟩ := Option.isSome_iff_exists.mp (h a (List.mem_cons_self a rest))
    simp [List.filterMap_cons, hb, ih (fun x hx => h x (List.mem_cons_of_mem a hx))]

/-! ## Claim C4 -/

/-- C4 counterexample: decoding a Level (type 11) record whose inner
records form the Object with the single entry `"" ↦ Int 7` — the value is
not an Array — resolves the Level to `Int 7` itself, not to the Object as
the claim states. -/
theorem C4_counterexample :
    parseClx false noZlib 40 c4bytes = .ok (.object [("a", .int 7)]) ∧
    (∀ m : List (String × ClxValue), ClxValue.int 7 ≠ ClxValue.object m) :=
  ⟨rfl, fun _ h => nomatch h⟩

/-- C4 (amended): a Level whose decoded Object has exactly one entry with
the empty-string key resolves to that entry's value, whatever it is (so
to an Array exactly when the value is an Array); with a non-empty key or
a different entry count the Object itself is returned.  The last conjunct
ties the promotion step to `read_level` on the live cursor. -/
theorem C4_level_promotion :
    (∀ v : ClxValue, level_promote (.object [("", v)]) = v) ∧
    (∀ (k : String) (v : ClxValue), k ≠ "" →
      level_promote (.object [(k, v)]) = .object [(k, v)]) ∧
    (∀ m : List (String × ClxValue), m.length ≠ 1 →
      level_promote (.object m) = .object m) ∧
    (∀ (strip : Bool) (zlib : Zlib) (f : Nat) (data : List Nat)
        (pos cnt len pos' : Nat) (m : List (String × ClxValue)),
      readLE data pos 4 = .ok cnt →
      readLE data (pos + 4) 8 = .ok len →
      parseRecords strip zlib f data cnt (pos + 12) [] = .ok (.object m, pos') →
      readLevel strip zlib (f + 1) data pos =
        .ok (level_promote (.object m), pos' + cnt * 8)) := by
  refine ⟨?_, ?_, ?_, ?_⟩
  · intro v; simp [level_promote, hasKey, getVal]
  · intro k v h; simp [level_promote, hasKey, getVal, h]
  · intro m h; simp [level_promote, h]
  · intro strip zlib f data pos cnt len pos' m h1 h2 h3
    simp [readLevel, h1, h2, h3]

/-- C4 witness: the promotion law evaluated at a non-Array single entry
and at a non-empty key. -/
theorem C4_witness :
    level_promote (.object [("", .int 7)]) = .int 7 ∧
    level_promote (.object [("x", .int 7)]) = .object [("x", .int 7)] :=
  ⟨C4_level_promotion.1 (.int 7), C4_level_promotion.2.1 "x" (.int 7) (by decide)⟩

/-! ## Claim C5 -/

/-- C5 (code bug): the chunkmap terminator signature ends in `'!'`, so the
name-collection loop always breaks on that byte before the terminator
comparison can fire (the flag is `false` even when the buffer begins with
the signature), and with 16 bytes following the signature the entry loop
inserts the terminator signature itself as a chunkmap key — the behaviour
the claim (and the source's own comment) rules out. -/
theorem C5_terminator_becomes_key :
    parseChunkmapEntries (ND2_CHUNKMAP_SIGNATURE ++ List.replicate 16 0) 0 [] =
      [(ND2_CHUNKMAP_SIGNATURE, (0, 0))] ∧
    collectName (ND2_CHUNKMAP_SIGNATURE ++ List.replicate 16 0) 0 [] =
      (ND2_CHUNKMAP_SIGNATURE, 32, false) := by
  exact ⟨by decide, by decide⟩

/-! ## Claim C7 -/

/-- C7 counterexample: a chunkmap with the single non-UTF-8 key
`[0xFF, '!']` yields no chunk names at all — the decode is strict
`String::from_utf8`, not lossy, and the returned list is shorter than the
key set. -/
theorem C7_counterexample :
    Nd2File.chunk_names st7 = [] ∧ st7.chunkmap.length = 1 ∧
    (Nd2File.chunk_names st7).length ≠ st7.chunkmap.length := by
  exact ⟨by decide, by decide, by decide⟩

/-- C7 (amended): `chunk_names` strictly UTF-8-decodes each key and drops
keys that fail to decode; the name count equals the key count exactly when
every key is valid UTF-8, and never exceeds it. -/
theorem C7_chunk_names_strict :
    (∀ f : Nd2File, (∀ k ∈ f.chunkmap, (stringFromUtf8 k.1).isSome) →
      (Nd2File.chunk_names f).length = f.chunkmap.length) ∧
    (∀ f : Nd2File, (Nd2File.chunk_names f).length ≤ f.chunkmap.length) := by
  constructor
  · intro f h
    exact length_filterMap_all_some _ _ h
  · intro f
    exact List.length_filterMap_le _ _

/-- C7 witness: on a chunkmap whose single key is valid UTF-8 the name
count matches the key count. -/
theorem C7_witness :
    (∀ k ∈ st7b.chunkmap, (stringFromUtf8 k.1).isSome) ∧
    (Nd2File.chunk_names st7b).length = st7b.chunkmap.length :=
  ⟨by decide, C7_chunk_names_strict.1 st7b (by decide)⟩

/-! ## Claim C8 -/

/-- C8 counterexample: three empty-named records decoded into one Object
do not always leave an Array of length 3 under `""` — when the first
record's value is itself an Array (here a list-promoted Level), the later
values are appended to it and the final Array has length 4. -/
theorem C8_counterexample :
    parseRecords false noZlib 40 c8bytes 3 0 [] =
      .ok (.object [("", .array [.int 1, .int 2, .int 3, .int 4])], 54) ∧
    ([ClxValue.int 1, .int 2, .int 3, .int 4].length = 4) :=
  ⟨rfl, rfl⟩

/-- C8 (amended): the empty-name coalescing rules as stated hold, and
three empty-named insertions produce `Array [v1, v2, v3]` provided the
first value is not itself an Array; the concrete decode of three
empty-named Int32 records confirms the length-3 consequence. -/
theorem C8_empty_name_coalescing :
    (∀ v1 v2 v3 : ClxValue, (∀ arr, v1 ≠ .array arr) →
      insert_entry (insert_entry (insert_entry [] "" v1) "" v2) "" v3 =
        [("", .array [v1, v2, v3])]) ∧
    parseRecords false noZlib 40 c8ok 3 0 [] =
      .ok (.object [("", .array [.int 1, .int 2, .int 3])], 18) := by
  constructor
  · intro v1 v2 v3 h
    have h1 : insert_entry [] "" v1 = [("", v1)] := by
      simp [insert_entry, getVal, insertAL]
    rw [h1]
    have h2 : insert_entry [("", v1)] "" v2 = [("", .array [v1, v2])] := by
      cases v1 <;>
        simp_all [insert_entry, getVal, insertAL, removeAL]
    rw [h2]
    simp [insert_entry, getVal, insertAL]
  · rfl

/-- C8 witness: the coalescing law at three non-Array values. -/
theorem C8_witness :
    insert_entry (insert_entry (insert_entry [] "" (.int 1)) "" (.int 2)) "" (.int 3) =
      [("", .array [.int 1, .int 2, .int 3])] :=
  C8_empty_name_coalescing.1 (.int 1) (.int 2) (.int 3) (fun _ h => nomatch h)

/-! ## Claim C6 -/

/-- C6 counterexample: a decoded attributes tree carrying all five
required integer fields directly in the root object — with no
`SLxImageAttributes` envelope — is rejected with `MetadataParse`, while
the same fields inside the envelope succeed; `parse_attributes` does not
tolerate a missing envelope as the claim states. -/
theorem C6_counterexample :
    parse_attributes (.object c6fields) =
      .error (.metadataParse "Missing SLxImageAttributes object") ∧
    (∃ a, parse_attributes (.object [("SLxImageAttributes", .object c6fields)]) = .ok a) :=
  ⟨rfl, ⟨_, rfl⟩⟩

/-- C6 (amended): `parse_attributes` requires the `SLxImageAttributes`
envelope: it fails with `MetadataParse` when the envelope key is absent
or not an object; with the envelope present it succeeds exactly when the
five required integer fields resolve, failing with a `Missing or
invalid` message on the first absent one. -/
theorem C6_attributes_envelope :
    (∀ root : List (String × ClxValue),
      (∀ obj, getVal root "SLxImageAttributes" ≠ some (.object obj)) →
      parse_attributes (.object root) =
        .error (.metadataParse "Missing SLxImageAttributes object")) ∧
    (∀ (root obj : List (String × ClxValue)),
      getVal root "SLxImageAttributes" = some (.object obj) →
      (attr_get_u32 obj "uiBpcInMemory").isSome →
      (attr_get_u32 obj "uiBpcSignificant").isSome →
      (attr_get_u32 obj "uiComp").isSome →
      (attr_get_u32 obj "uiHeight").isSome →
      (attr_get_u32 obj "uiSequenceCount").isSome →
      ∃ a, parse_attributes (.object root) = .ok a) ∧
    (∀ (root obj : List (String × ClxValue)),
      getVal root "SLxImageAttributes" = some (.object obj) →
      attr_get_u32 obj "uiBpcInMemory" = none →
      parse_attributes (.object root) =
        .error (.metadataParse "Missing or invalid uiBpcInMemory")) := by
  refine ⟨?_, ?_, ?_⟩
  · intro root h
    cases henv : getVal root "SLxImageAttributes" with
    | none => simp [parse_attributes, ClxValue.as_object, henv]
    | some v =>
      cases v <;> first
        | exact absurd henv (h _)
        | simp [parse_attributes, ClxValue.as_object, henv]
  · intro root obj h h1 h2 h3 h4 h5
    obtain ⟨v1, hv1⟩ := Option.isSome_iff_exists.mp h1
    obtain ⟨v2, hv2⟩ := Option.isSome_iff_exists.mp h2
    obtain ⟨v3, hv3⟩ := Option.isSome_iff_exists.mp h3
    obtain ⟨v4, hv4⟩ := Option.isSome_iff_exists.mp h4
    obtain ⟨v5, hv5⟩ := Option.isSome_iff_exists.mp h5
    simp only [parse_attributes, ClxValue.as_object, h, parse_attributes_fields,
      hv1, hv2, hv3, hv4, hv5]
    exact ⟨_, rfl⟩
  · intro root obj h h1
    simp only [parse_attributes, ClxValue.as_object, h, parse_attributes_fields, h1]

/-- C6 witness: the amended theorem evaluated on the concrete field set,
inside and outside the envelope. -/
theorem C6_witness :
    (∃ a, parse_attributes (.object [("SLxImageAttributes", .object c6fields)]) = .ok a) ∧
    parse_attributes (.object [("other", .int 1)]) =
      .error (.metadataParse "Missing SLxImageAttributes object") :=
  ⟨C6_attributes_envelope.2.1 _ c6fields rfl (by decide) (by decide) (by decide)
      (by decide) (by decide),
    C6_attributes_envelope.1 [("other", .int 1)] (fun _ h => Option.noConfusion h)⟩

/-! ## Claim C10 -/

/-- C10: on a 112-byte header with the modern magic, name length 32,
data length 64 and the correct file signature, a non-digit version byte
at payload offset 3 parses as major 0 (`to_digit(10).unwrap_or(0)`), and
`open` then fails with `UnsupportedVersion` at major 0 — not with
`InvalidFormat` and not with a panic. -/
theorem C10_nondigit_version (file header : List Nat)
    (htake : takeExact file 0 112 = some header)
    (hmagic : leBytes (slice header 0 4) = ND2_CHUNK_MAGIC)
    (hname : leBytes (slice header 4 4) = 32)
    (hdata : leBytes (slice header 8 8) = 64)
    (hsig : slice header 16 32 = ND2_FILE_SIGNATURE)
    (hdigit : charToDigit10 ((slice header 48 64).getD 3 0) = none) :
    read_version file =
      .ok (0, (charToDigit10 ((slice header 48 64).getD 5 0)).getD 0) ∧
    Nd2File.openFile file =
      .error (.unsupportedVersion 0
        ((charToDigit10 ((slice header 48 64).getD 5 0)).getD 0)) := by
  have hrv : read_version file =
      .ok (0, (charToDigit10 ((slice header 48 64).getD 5 0)).getD 0) := by
    simp only [read_version, htake, hmagic, hname, hdata, hsig, hdigit]
    norm_num [ND2_CHUNK_MAGIC, JP2_MAGIC]
  refine ⟨hrv, ?_⟩
  simp [Nd2File.openFile, hrv]

/-- C10 witness: the concrete header with payload `"VerX.0"`. -/
theorem C10_witness :
    takeExact c10file 0 112 = some c10file ∧
    Nd2File.openFile c10file = .error (.unsupportedVersion 0 0) :=
  ⟨by decide,
    (C10_nondigit_version c10file c10file (by decide) (by decide) (by decide)
      (by decide) (by decide) (by decide)).2⟩

/-! ## Claim C9 -/

/-- C9: the metadata accessors are atomic — whenever `attributes()`,
`experiment()` or `text_info()` returns an error, the facade state is
unchanged (the corresponding cache slot stays `None` and no other slot is
touched); on success the state is either unchanged (cache hit) or updated
only in the accessor's own slot. -/
theorem C9_error_not_memoised (zlib : Zlib) (fuel : Nat) (f : Nd2File) :
    (∀ e, (Nd2File.attributesM zlib fuel f).1 = .error e →
      (Nd2File.attributesM zlib fuel f).2 = f) ∧
    (∀ e, (Nd2File.experimentM zlib fuel f).1 = .error e →
      (Nd2File.experimentM zlib fuel f).2 = f) ∧
    (∀ e, (Nd2File.textInfoM zlib fuel f).1 = .error e →
      (Nd2File.textInfoM zlib fuel f).2 = f) ∧
    (∀ v, (Nd2File.attributesM zlib fuel f).1 = .ok v →
      (Nd2File.attributesM zlib fuel f).2 = f ∨
      (Nd2File.attributesM zlib fuel f).2 = { f with attributes := some v }) ∧
    (∀ v, (Nd2File.experimentM zlib fuel f).1 = .ok v →
      (Nd2File.experimentM zlib fuel f).2 = f ∨
      (Nd2File.experimentM zlib fuel f).2 = { f with experiment := some v }) ∧
    (∀ v, (Nd2File.textInfoM zlib fuel f).1 = .ok v →
      (Nd2File.textInfoM zlib fuel f).2 = f ∨
      (Nd2File.textInfoM zlib fuel f).2 = { f with text_info := some v }) := by
  refine ⟨?_, ?_, ?_, ?_, ?_, ?_⟩ <;> intro x
  · unfold Nd2File.attributesM
    cases hc : f.attributes with
    | some v => simp
    | none =>
      cases hrc : read_chunk f.file f.chunkmap (Nd2File.attributesChunkName f) with
      | error e => simp [hrc]
      | ok data =>
        cases hp : parseClx false zlib fuel data with
        | error e => simp [hrc, hp]
        | ok clx =>
          cases hpa : parse_attributes clx with
          | error e => simp [hrc, hp, hpa]
          | ok v => simp [hrc, hp, hpa]
  · unfold Nd2File.experimentM
    cases hc : f.experiment with
    | some v => simp
    | none =>
      by_cases hk : hasKey f.chunkmap (Nd2File.experimentChunkName f) = false
      · simp [hk]
      · simp only [if_neg hk]
        cases hrc : read_chunk f.file f.chunkmap (Nd2File.experimentChunkName f) with
        | error e => simp [hrc]
        | ok data =>
          cases hp : parseClx false zlib fuel data with
          | error e => simp [hrc, hp]
          | ok clx => simp [hrc, hp]
  · unfold Nd2File.textInfoM
    cases hc : f.text_info with
    | some v => simp
    | none =>
      by_cases hk : hasKey f.chunkmap (Nd2File.textInfoChunkName f) = false
      · simp [hk]
      · simp only [if_neg hk]
        cases hrc : read_chunk f.file f.chunkmap (Nd2File.textInfoChunkName f) with
        | error e => simp [hrc]
        | ok data =>
          cases hp : parseClx false zlib fuel data with
          | error e => simp [hrc, hp]
          | ok clx =>
            cases hpt : parse_text_info clx with
            | error e => simp [hrc, hp, hpt]
            | ok v => simp [hrc, hp, hpt]
  · unfold Nd2File.attributesM
    cases hc : f.attributes with
    | some v => intro h; left; rfl
    | none =>
      cases hrc : read_chunk f.file f.chunkmap (Nd2File.attributesChunkName f) with
      | error e => simp [hrc]
      | ok data =>
        cases hp : parseClx false zlib fuel data with
        | error e => simp [hrc, hp]
        | ok clx =>
          cases hpa : parse_attributes clx with
          | error e => simp [hrc, hp, hpa]
          | ok v =>
            simp only [hrc, hp, hpa]
            intro h
            right
            simp only [Except.ok.injEq] at h
            simp [h]
  · unfold Nd2File.experimentM
    cases hc : f.experiment with
    | some v => intro h; left; rfl
    | none =>
      by_cases hk : hasKey f.chunkmap (Nd2File.experimentChunkName f) = false
      · simp only [hk, if_pos]
        intro h
        right
        simp only [Except.ok.injEq] at h
        simp [h]
      · simp only [if_neg hk]
        cases hrc : read_chunk f.file f.chunkmap (Nd2File.experimentChunkName f) with
        | error e => simp [hrc]
        | ok data =>
          cases hp : parseClx false zlib fuel data with
          | error e => simp [hrc, hp]
          | ok clx =>
            simp only [hrc, hp]
            intro h
            right
            simp only [Except.ok.injEq] at h
            simp [h]
  · unfold Nd2File.textInfoM
    cases hc : f.text_info with
    | some v => intro h; left; rfl
    | none =>
      by_cases hk : hasKey f.chunkmap (Nd2File.textInfoChunkName f) = false
      · simp only [hk, if_pos]
        intro h
        right
        simp only [Except.ok.injEq] at h
        simp [h]
      · simp only [if_neg hk]
        cases hrc : read_chunk f.file f.chunkmap (Nd2File.textInfoChunkName f) with
        | error e => simp [hrc]
        | ok data =>
          cases hp : parseClx false zlib fuel data with
          | error e => simp [hrc, hp]
          | ok clx =>
            cases hpt : parse_text_info clx with
            | error e => simp [hrc, hp, hpt]
            | ok v =>
              simp only [hrc, hp, hpt]
              intro h
              right
              simp only [Except.ok.injEq] at h
              simp [h]

/-- C9 witness: on an open v3 reader with an empty chunkmap the
attributes accessor fails with `ChunkNotFound` and leaves the state
exactly as it was. -/
theorem C9_witness :
    (Nd2File.attributesM noZlib 5 st0).1 = .error (.chunkNotFound "ImageAttributesLV!") ∧
    (Nd2File.attributesM noZlib 5 st0).2 = st0 :=
  ⟨by rfl, (C9_error_not_memoised noZlib 5 st0).1 _ (by rfl)⟩

/-! ## Claim C2 -/

theorem foldl_size_preserved {β : Type} (l : List β) (g : Array Nat → β → Array Nat)
    (hg : ∀ a b, (g a b).size = a.size) : ∀ a : Array Nat, (l.foldl g a).size = a.size := by
  induction l with
  | nil => intro a; rfl
  | cons x rest ih => intro a; rw [List.foldl_cons, ih, hg]

/-- The repack loop writes in place, so the output always has exactly
`h*w*n_c*n_comp` entries. -/
theorem repack_size (h w n_c n_comp : Nat) (pixels : List Nat) :
    (repack h w n_c n_comp pixels).size = h * w * n_c * n_comp := by
  unfold repack
  rw [foldl_size_preserved]
  · exact Array.size_mkArray _ _
  · intro a b
    rw [foldl_size_preserved]
    intro a b
    rw [foldl_size_preserved]
    intro a b
    rw [foldl_size_preserved]
    intro a b
    exact Array.size_setD _ _ _

/-- C2 counterexample: with 3 components grouped as 2 channels (so the
channel count does not divide the component count), a successfully
decoded 1x1 frame has 2 samples, not `H*W*component_count = 3`. -/
theorem C2_counterexample :
    read_frame noZlib attrs1 [1, 0, 2, 0] = .ok [1, 2] ∧
    attrs1.height_px * attrs1.width_px.getD 0 * attrs1.component_count = 3 ∧
    ([1, 2] : List Nat).length = 2 :=
  ⟨rfl, rfl, rfl⟩

/-- C2 (amended): a successfully decoded frame has length
`H * W * n_c * n_comp` with `(n_c, n_comp)` computed as in the source
(integer division of `component_count` by a positive `channel_count`);
this equals `H * W * component_count` whenever any present channel count
divides the component count (in particular when it is absent or zero). -/
theorem C2_frame_length (zlib : Zlib) (attrs : Attributes) (data out : List Nat)
    (hok : read_frame zlib attrs data = .ok out) :
    out.length = attrs.height_px * attrs.width_px.getD 0 *
      (match attrs.channel_count with
        | some ch => if ch > 0 then ch * (attrs.component_count / ch)
            else attrs.component_count
        | none => attrs.component_count) ∧
    ((∀ ch, attrs.channel_count = some ch → ch ∣ attrs.component_count) →
      out.length = attrs.height_px * attrs.width_px.getD 0 * attrs.component_count) := by
  have hlen : out.length = attrs.height_px * attrs.width_px.getD 0 *
      (match attrs.channel_count with
        | some ch => if ch > 0 then ch * (attrs.component_count / ch)
            else attrs.component_count
        | none => attrs.component_count) := by
    simp only [read_frame] at hok
    split at hok
    · exact absurd hok (by simp)
    · split at hok
      · exact absurd hok (by simp)
      · split at hok
        · exact absurd hok (by simp)
        · simp only [Except.ok.injEq] at hok
          rw [← hok, Array.length_toList, repack_size]
          cases hcc : attrs.channel_count with
          | none => simp [Nat.mul_assoc]
          | some ch =>
            by_cases hch : ch > 0
            · simp [hch, Nat.mul_assoc]
            · simp [hch, Nat.mul_assoc]
  refine ⟨hlen, ?_⟩
  intro hdvd
  rw [hlen]
  cases hcc : attrs.channel_count with
  | none => rfl
  | some ch =>
    by_cases hch : ch > 0
    · simp only [if_pos hch]
      rw [Nat.mul_div_cancel' (hdvd ch hcc)]
    · simp only [if_neg hch]

/-- C2 witness: a successfully decoded single-component frame has
`H*W*component_count` samples. -/
theorem C2_witness :
    read_frame noZlib attrs0 [5, 0] = .ok [5] ∧
    ([5] : List Nat).length =
      attrs0.height_px * attrs0.width_px.getD 0 * attrs0.component_count :=
  ⟨by rfl,
    (C2_frame_length noZlib attrs0 [5, 0] [5] (by rfl)).2 (fun _ h => nomatch h)⟩

/-! ## Claim C3 -/

theorem getVal_mem {κ α : Type} [DecidableEq κ] (m : List (κ × α)) (k : κ) (v : α)
    (h : getVal m k = some v) : (k, v) ∈ m := by
  induction m with
  | nil => simp [getVal] at h
  | cons p rest ih =>
    rw [getVal] at h
    by_cases hp : p.1 = k
    · simp only [if_pos hp, Option.some.injEq] at h
      have : (k, v) = p := by
        rw [← hp, ← h]
      rw [this]
      exact List.mem_cons_self _ _
    · simp only [if_neg hp] at h
      exact List.mem_cons_of_mem _ (ih h)

theorem hasKey_exists {κ α : Type} [DecidableEq κ] (m : List (κ × α)) (k : κ)
    (h : hasKey m k = true) : ∃ v, getVal m k = some v := by
  induction m with
  | nil => simp [hasKey] at h
  | cons p rest ih =>
    rw [hasKey] at h
    by_cases hp : p.1 = k
    · exact ⟨p.2, by simp [getVal, hp]⟩
    · simp only [if_neg hp] at h
      obtain ⟨v, hv⟩ := ih h
      exact ⟨v, by simp [getVal, hp, hv]⟩

theorem getVal_hasKey {κ α : Type} [DecidableEq κ] (m : List (κ × α)) (k : κ) (v : α)
    (h : getVal m k = some v) : hasKey m k = true := by
  induction m with
  | nil => simp [getVal] at h
  | cons p rest ih =>
    rw [getVal] at h
    rw [hasKey]
    by_cases hp : p.1 = k
    · simp [hp]
    · simp only [if_neg hp] at h ⊢
      exact ih h

theorem insertAL_mem {κ α : Type} [DecidableEq κ] (m : List (κ × α)) (k : κ) (v : α)
    (p : κ × α) (h : p ∈ insertAL m k v) : p = (k, v) ∨ p ∈ m := by
  induction m with
  | nil => simp [insertAL] at h; left; exact h
  | cons q rest ih =>
    by_cases hq : q.1 = k
    · simp only [insertAL, if_pos hq] at h
      rcases List.mem_cons.mp h with h | h
      · left; exact h
      · right; exact List.mem_cons_of_mem _ h
    · simp only [insertAL, if_neg hq] at h
      rcases List.mem_cons.mp h with h | h
      · right; exact h ▸ List.mem_cons_self _ _
      · rcases ih h with h | h
        · left; exact h
        · right; exact List.mem_cons_of_mem _ h

/-- All values inserted by the sizes loop are loop counts, so positivity
of the counts is preserved along the fold. -/
theorem sizes_fold_values_pos (exp : List ExpLoop)
    (hpos : ∀ l ∈ exp, 0 < l.count) :
    ∀ m0 : List (String × Nat), (∀ p ∈ m0, 0 < p.2) →
    ∀ p ∈ exp.foldl sizes_loop_insert m0, 0 < p.2 := by
  induction exp with
  | nil => intro m0 hm0 p hp; exact hm0 p hp
  | cons l rest ih =>
    intro m0 hm0 p hp
    have hl : 0 < l.count := hpos l (List.mem_cons_self _ _)
    have hrest : ∀ l' ∈ rest, 0 < l'.count :=
      fun l' hl' => hpos l' (List.mem_cons_of_mem _ hl')
    refine ih hrest (sizes_loop_insert m0 l) ?_ p hp
    intro q hq
    cases l with
    | timeLoop t =>
      rcases insertAL_mem _ _ _ _ hq with h | h
      · rw [h]; exact hl
      · exact hm0 q h
    | neTimeLoop n =>
      rcases insertAL_mem _ _ _ _ hq with h | h
      · rw [h]; exact hl
      · exact hm0 q h
    | xyPosLoop xy =>
      rcases insertAL_mem _ _ _ _ hq with h | h
      · rw [h]; exact hl
      · exact hm0 q h
    | zStackLoop z =>
      rcases insertAL_mem _ _ _ _ hq with h | h
      · rw [h]; exact hl
      · exact hm0 q h
    | customLoop c => exact hm0 q hq

/-- Conditional-default insertion keeps a key present and preserves both
key presence and value positivity. -/
theorem cond_insert_hasKey (m : List (String × Nat)) (k : String) (v : Nat) :
    hasKey (if hasKey m k then m else insertAL m k v) k = true := by
  by_cases h : hasKey m k
  · simp [h]
  · simp only [h, if_neg]
    simpa using hasKey_insertAL_self m k v

theorem cond_insert_keeps (m : List (String × Nat)) (c : Prop) [Decidable c]
    (k' : String) (v : Nat) (k : String) (h : hasKey m k = true) :
    hasKey (if c then m else insertAL m k' v) k = true := by
  by_cases hc : c
  · simpa [hc] using h
  · simp only [if_neg hc]
    exact hasKey_insertAL_of m k' k v h

theorem cond_insert_pos (m : List (String × Nat)) (c : Prop) [Decidable c]
    (k' : String) (v : Nat) (hv : 0 < v) (hm : ∀ p ∈ m, 0 < p.2) :
    ∀ p ∈ (if c then m else insertAL m k' v), 0 < p.2 := by
  by_cases hc : c
  · simpa [hc] using hm
  · simp only [if_neg hc]
    intro p hp
    rcases insertAL_mem _ _ _ _ hp with h | h
    · rw [h]; exact hv
    · exact hm p h

/-- C3 counterexample: attributes with a known positive width but zero
height, zero components and zero sequence count produce a sizes map whose
Y*X product and P*T*C*Z product are both zero. -/
theorem C3_counterexample :
    sizes attrs3 [] = some [(AXIS_P, 1), (AXIS_T, 0), (AXIS_C, 0), (AXIS_Z, 1),
      (AXIS_Y, 0), (AXIS_X, 1)] ∧
    attrs3.width_px = some 1 ∧
    (0 : Nat) * 1 = 0 ∧
    (1 : Nat) * 0 * 0 * 1 = 0 := by
  refine ⟨by decide, by decide, rfl, rfl⟩

/-- C3 (amended): whenever `sizes()` returns, the map carries all six
axis keys, with `Y = height_px`; `Y*X > 0` holds whenever the effective
width (`width_px`, or failing that the width derived from `width_bytes`)
is known and positive and the height is positive; and the P*T*C*Z
product is positive provided every experiment loop count is positive,
the channel count (`channel_count ?? component_count`) is positive, and
— in the empty-experiment fallback — `sequence_count` is at least the
channel count. -/
theorem C3_sizes_amended (attrs : Attributes) (exp : List ExpLoop)
    (m : List (String × Nat)) (hm : sizes attrs exp = some m) :
    (hasKey m AXIS_P = true ∧ hasKey m AXIS_T = true ∧ hasKey m AXIS_C = true ∧
      hasKey m AXIS_Z = true ∧ hasKey m AXIS_Y = true ∧ hasKey m AXIS_X = true) ∧
    getVal m AXIS_Y = some attrs.height_px ∧
    (∀ w, attrs.width_px.or (attrs.width_bytes.map (fun wb =>
        wb / ((attrs.bits_per_component_in_memory / 8) * attrs.component_count))) =
          some w →
      0 < w → 0 < attrs.height_px →
      0 < (getVal m AXIS_Y).getD 0 * (getVal m AXIS_X).getD 0) ∧
    ((∀ l ∈ exp, 0 < l.count) →
      0 < attrs.channel_count.getD attrs.component_count →
      (exp.isEmpty = true →
        attrs.channel_count.getD attrs.component_count ≤ attrs.sequence_count) →
      0 < (getVal m AXIS_P).getD 0 * (getVal m AXIS_T).getD 0 *
          (getVal m AXIS_C).getD 0 * (getVal m AXIS_Z).getD 0) := by
  simp only [sizes] at hm
  split at hm
  · exact absurd hm (by simp)
  · rename_i derivedWidth heq
    simp only [Option.some.injEq] at hm
    subst hm
    have hor : ∀ w, attrs.width_px.or (attrs.width_bytes.map (fun wb =>
        wb / ((attrs.bits_per_component_in_memory / 8) * attrs.component_count))) =
          some w →
        attrs.width_px.or derivedWidth = some w := by
      intro w hw
      rcases hwb : attrs.width_bytes with _ | wb
      · rw [hwb] at heq
        simp only [Option.some.injEq] at heq
        rw [← heq]
        rw [hwb] at hw
        simpa using hw
      · rw [hwb] at heq
        by_cases hd : (attrs.bits_per_component_in_memory / 8) * attrs.component_count = 0
        · simp [hd] at heq
        · simp only [if_neg hd, Option.some.injEq] at heq
          rw [← heq]
          rw [hwb] at hw
          simpa using hw
    by_cases hexp : exp.isEmpty = true
    · simp only [hexp, if_pos]
      constructor
      · -- all six keys present in the fallback chain
        refine ⟨?_, ?_, ?_, ?_, ?_, ?_⟩ <;>
          first
            | exact hasKey_insertAL_self _ _ _
            | (apply hasKey_insertAL_of
               first
                 | exact hasKey_insertAL_self _ _ _
                 | (apply hasKey_insertAL_of
                    first
                      | exact hasKey_insertAL_self _ _ _
                      | (apply hasKey_insertAL_of
                         first
                           | exact hasKey_insertAL_self _ _ _
                           | (apply hasKey_insertAL_of
                              first
                                | exact hasKey_insertAL_self _ _ _
                                | (apply hasKey_insertAL_of
                                   exact hasKey_insertAL_self _ _ _)))))
      refine ⟨?_, ?_, ?_⟩
      · rw [getVal_insertAL_ne _ _ _ _ (by decide : AXIS_Y ≠ AXIS_X)]
        exact getVal_insertAL_self _ _ _
      · intro w hw hwpos hhpos
        rw [getVal_insertAL_ne _ _ _ _ (by decide : AXIS_Y ≠ AXIS_X),
          getVal_insertAL_self, getVal_insertAL_self, hor w hw]
        simp only [Option.getD_some]
        exact Nat.mul_pos hhpos hwpos
      · intro _ hchan hseq
        rw [getVal_insertAL_ne _ _ _ _ (by decide : AXIS_P ≠ AXIS_X),
          getVal_insertAL_ne _ _ _ _ (by decide : AXIS_P ≠ AXIS_Y),
          getVal_insertAL_ne _ _ _ _ (by decide : AXIS_P ≠ AXIS_Z),
          getVal_insertAL_ne _ _ _ _ (by decide : AXIS_P ≠ AXIS_C),
          getVal_insertAL_ne _ _ _ _ (by decide : AXIS_P ≠ AXIS_T),
          getVal_insertAL_self,
          getVal_insertAL_ne _ _ _ _ (by decide : AXIS_T ≠ AXIS_X),
          getVal_insertAL_ne _ _ _ _ (by decide : AXIS_T ≠ AXIS_Y),
          getVal_insertAL_ne _ _ _ _ (by decide : AXIS_T ≠ AXIS_Z),
          getVal_insertAL_ne _ _ _ _ (by decide : AXIS_T ≠ AXIS_C),
          getVal_insertAL_self,
          getVal_insertAL_ne _ _ _ _ (by decide : AXIS_C ≠ AXIS_X),
          getVal_insertAL_ne _ _ _ _ (by decide : AXIS_C ≠ AXIS_Y),
          getVal_insertAL_ne _ _ _ _ (by decide : AXIS_C ≠ AXIS_Z),
          getVal_insertAL_self,
          getVal_insertAL_ne _ _ _ _ (by decide : AXIS_Z ≠ AXIS_X),
          getVal_insertAL_ne _ _ _ _ (by decide : AXIS_Z ≠ AXIS_Y),
          getVal_insertAL_self]
        simp only [Option.getD_some]
        have hmax : 1 * attrs.channel_count.getD attrs.component_count * 1 ⊔ 1 =
            attrs.channel_count.getD attrs.component_count := by
          rw [Nat.one_mul, Nat.mul_one]
          exact Nat.max_eq_left hchan
        rw [hmax]
        have ht : 0 < attrs.sequence_count / attrs.channel_count.getD attrs.component_count :=
          Nat.div_pos (hseq trivial) hchan
        have := Nat.mul_pos (Nat.mul_pos (Nat.mul_pos Nat.one_pos ht) hchan) Nat.one_pos
        simpa using this
    · simp only [if_neg hexp]
      set F := List.foldl sizes_loop_insert [] exp with hF
      set nc := attrs.channel_count.getD attrs.component_count with hnc
      set M1 := (if hasKey F AXIS_C = true then F else insertAL F AXIS_C nc) with hM1
      set M2 := (if hasKey M1 AXIS_P = true then M1 else insertAL M1 AXIS_P 1) with hM2
      set M3 := (if hasKey M2 AXIS_T = true then M2 else insertAL M2 AXIS_T 1) with hM3
      set M4 := (if hasKey M3 AXIS_Z = true then M3 else insertAL M3 AXIS_Z 1) with hM4
      have hkC : hasKey M4 AXIS_C = true := by
        rw [hM4, hM3, hM2]
        exact cond_insert_keeps _ _ _ _ _ (cond_insert_keeps _ _ _ _ _
          (cond_insert_keeps _ _ _ _ _ (by rw [hM1]; exact cond_insert_hasKey _ _ _)))
      have hkP : hasKey M4 AXIS_P = true := by
        rw [hM4, hM3]
        exact cond_insert_keeps _ _ _ _ _ (cond_insert_keeps _ _ _ _ _
          (by rw [hM2]; exact cond_insert_hasKey _ _ _))
      have hkT : hasKey M4 AXIS_T = true := by
        rw [hM4]
        exact cond_insert_keeps _ _ _ _ _ (by rw [hM3]; exact cond_insert_hasKey _ _ _)
      have hkZ : hasKey M4 AXIS_Z = true := by
        rw [hM4]; exact cond_insert_hasKey _ _ _
      constructor
      · refine ⟨?_, ?_, ?_, ?_, ?_, ?_⟩
        · exact hasKey_insertAL_of _ _ _ _ (hasKey_insertAL_of _ _ _ _ hkP)
        · exact hasKey_insertAL_of _ _ _ _ (hasKey_insertAL_of _ _ _ _ hkT)
        · exact hasKey_insertAL_of _ _ _ _ (hasKey_insertAL_of _ _ _ _ hkC)
        · exact hasKey_insertAL_of _ _ _ _ (hasKey_insertAL_of _ _ _ _ hkZ)
        · exact hasKey_insertAL_of _ _ _ _ (hasKey_insertAL_self _ _ _)
        · exact hasKey_insertAL_self _ _ _
      refine ⟨?_, ?_, ?_⟩
      · rw [getVal_insertAL_ne _ _ _ _ (by decide : AXIS_Y ≠ AXIS_X)]
        exact getVal_insertAL_self _ _ _
      · intro w hw hwpos hhpos
        rw [getVal_insertAL_ne _ _ _ _ (by decide : AXIS_Y ≠ AXIS_X),
          getVal_insertAL_self, getVal_insertAL_self, hor w hw]
        simp only [Option.getD_some]
        exact Nat.mul_pos hhpos hwpos
      · intro hpos hchan _
        have hvals : ∀ p ∈ M4, 0 < p.2 := by
          rw [hM4]
          apply cond_insert_pos _ _ _ _ Nat.one_pos
          rw [hM3]
          apply cond_insert_pos _ _ _ _ Nat.one_pos
          rw [hM2]
          apply cond_insert_pos _ _ _ _ Nat.one_pos
          rw [hM1]
          apply cond_insert_pos _ _ _ _ hchan
          rw [hF]
          exact sizes_fold_values_pos exp hpos [] (by simp)
        obtain ⟨vP, hvP⟩ := hasKey_exists _ _ hkP
        obtain ⟨vT, hvT⟩ := hasKey_exists _ _ hkT
        obtain ⟨vC, hvC⟩ := hasKey_exists _ _ hkC
        obtain ⟨vZ, hvZ⟩ := hasKey_exists _ _ hkZ
        rw [getVal_insertAL_ne _ _ _ _ (by decide : AXIS_P ≠ AXIS_X),
          getVal_insertAL_ne _ _ _ _ (by decide : AXIS_P ≠ AXIS_Y), hvP,
          getVal_insertAL_ne _ _ _ _ (by decide : AXIS_T ≠ AXIS_X),
          getVal_insertAL_ne _ _ _ _ (by decide : AXIS_T ≠ AXIS_Y), hvT,
          getVal_insertAL_ne _ _ _ _ (by decide : AXIS_C ≠ AXIS_X),
          getVal_insertAL_ne _ _ _ _ (by decide : AXIS_C ≠ AXIS_Y), hvC,
          getVal_insertAL_ne _ _ _ _ (by decide : AXIS_Z ≠ AXIS_X),
          getVal_insertAL_ne _ _ _ _ (by decide : AXIS_Z ≠ AXIS_Y), hvZ]
        simp only [Option.getD_some]
        exact Nat.mul_pos (Nat.mul_pos (Nat.mul_pos
          (hvals _ (getVal_mem _ _ _ hvP)) (hvals _ (getVal_mem _ _ _ hvT)))
          (hvals _ (getVal_mem _ _ _ hvC))) (hvals _ (getVal_mem _ _ _ hvZ))

/-- C3 witness: the amended sizes law on a positive time/Z experiment
whose width is known only through `width_bytes` (no `width_px`). -/
theorem C3_witness :
    sizes attrs4 expW = some [(AXIS_T, 2), (AXIS_Z, 3), (AXIS_C, 1), (AXIS_P, 1),
      (AXIS_Y, 1), (AXIS_X, 2)] ∧
    attrs4.width_px = none ∧
    (∀ l ∈ expW, 0 < l.count) ∧
    0 < (getVal [(AXIS_T, 2), (AXIS_Z, 3), (AXIS_C, 1), (AXIS_P, 1),
          (AXIS_Y, 1), (AXIS_X, 2)] AXIS_Y).getD 0 *
        (getVal [(AXIS_T, 2), (AXIS_Z, 3), (AXIS_C, 1), (AXIS_P, 1),
          (AXIS_Y, 1), (AXIS_X, 2)] AXIS_X).getD 0 ∧
    0 < (getVal [(AXIS_T, 2), (AXIS_Z, 3), (AXIS_C, 1), (AXIS_P, 1),
          (AXIS_Y, 1), (AXIS_X, 2)] AXIS_P).getD 0 *
        (getVal [(AXIS_T, 2), (AXIS_Z, 3), (AXIS_C, 1), (AXIS_P, 1),
          (AXIS_Y, 1), (AXIS_X, 2)] AXIS_T).getD 0 *
        (getVal [(AXIS_T, 2), (AXIS_Z, 3), (AXIS_C, 1), (AXIS_P, 1),
          (AXIS_Y, 1), (AXIS_X, 2)] AXIS_C).getD 0 *
        (getVal [(AXIS_T, 2), (AXIS_Z, 3), (AXIS_C, 1), (AXIS_P, 1),
          (AXIS_Y, 1), (AXIS_X, 2)] AXIS_Z).getD 0 :=
  ⟨by decide, by decide, by decide,
    (C3_sizes_amended attrs4 expW [(AXIS_T, 2), (AXIS_Z, 3), (AXIS_C, 1), (AXIS_P, 1),
        (AXIS_Y, 1), (AXIS_X, 2)] (by decide)).2.2.1 2 (by decide) (by decide) (by decide),
    (C3_sizes_amended attrs4 expW [(AXIS_T, 2), (AXIS_Z, 3), (AXIS_C, 1), (AXIS_P, 1),
        (AXIS_Y, 1), (AXIS_X, 2)] (by decide)).2.2.2 (by decide) (by decide) (by decide)⟩

/-! ## Claim C1 -/

theorem zip_reverse {α β : Type} (l1 : List α) (l2 : List β) (h : l1.length = l2.length) :
    (l1.zip l2).reverse = l1.reverse.zip l2.reverse := by
  induction l1 generalizing l2 with
  | nil =>
    cases l2 with
    | nil => rfl
    | cons b t => simp at h
  | cons a t1 ih =>
    cases l2 with
    | nil => simp at h
    | cons b t2 =>
      simp only [List.length_cons, Nat.succ.injEq] at h
      simp only [List.zip_cons_cons, List.reverse_cons, ih t2 h]
      rw [List.zip_append (by simp [h])]
      rfl

theorem axis_push_len (exp : List ExpLoop) :
    ∀ acc : List String × List Nat, acc.1.length = acc.2.length →
      (exp.foldl axis_push acc).1.length = (exp.foldl axis_push acc).2.length := by
  induction exp with
  | nil => intro acc h; exact h
  | cons l rest ih =>
    intro acc h
    rw [List.foldl_cons]
    apply ih
    cases l <;> simp [axis_push, h]

theorem axis_push_mem (exp : List ExpLoop) :
    ∀ acc : List String × List Nat,
      (∀ ax ∈ acc.1, ax = AXIS_T ∨ ax = AXIS_P ∨ ax = AXIS_Z) →
      ∀ ax ∈ (exp.foldl axis_push acc).1, ax = AXIS_T ∨ ax = AXIS_P ∨ ax = AXIS_Z := by
  induction exp with
  | nil => intro acc h; exact h
  | cons l rest ih =>
    intro acc h
    rw [List.foldl_cons]
    apply ih
    cases l with
    | timeLoop t =>
      intro ax hax
      rcases List.mem_append.mp hax with h' | h'
      · exact h ax h'
      · left; simpa using h'
    | neTimeLoop n =>
      intro ax hax
      rcases List.mem_append.mp hax with h' | h'
      · exact h ax h'
      · left; simpa using h'
    | xyPosLoop xy =>
      intro ax hax
      rcases List.mem_append.mp hax with h' | h'
      · exact h ax h'
      · right; left; simpa using h'
    | zStackLoop z =>
      intro ax hax
      rcases List.mem_append.mp hax with h' | h'
      · exact h ax h'
      · right; right; simpa using h'
    | customLoop c => exact h

theorem coord_axis_order_len (attrs : Attributes) (exp : List ExpLoop) :
    (coord_axis_order attrs exp).1.length = (coord_axis_order attrs exp).2.length := by
  have h0 := axis_push_len exp ([], []) rfl
  unfold coord_axis_order
  by_cases hexp : exp.isEmpty = true
  · simp [hexp]
  · simp only [hexp, Bool.false_eq_true, if_false, if_neg]
    split_ifs <;> simp [h0]

theorem coord_axis_order_mem (attrs : Attributes) (exp : List ExpLoop) :
    ∀ ax ∈ (coord_axis_order attrs exp).1,
      ax = AXIS_P ∨ ax = AXIS_T ∨ ax = AXIS_C ∨ ax = AXIS_Z := by
  have hbase := axis_push_mem exp ([], []) (by simp)
  unfold coord_axis_order
  by_cases hexp : exp.isEmpty = true
  · simp only [hexp, if_pos]
    intro ax hax
    simp only [List.mem_cons, List.mem_singleton, List.not_mem_nil, or_false] at hax
    rcases hax with h | h | h | h
    · left; exact h
    · right; left; exact h
    · right; right; left; exact h
    · right; right; right; exact h
  · simp only [hexp, Bool.false_eq_true, if_false, if_neg]
    split_ifs <;>
      (intro ax hax
       simp only [List.mem_append, List.mem_singleton] at hax
       have hb := hbase ax
       tauto)

theorem unravel_rev_map_fst (l : List (String × Nat)) :
    ∀ s, (unravel_rev l s).map Prod.fst = l.map Prod.fst := by
  induction l with
  | nil => intro s; rfl
  | cons p rest ih =>
    intro s
    cases p
    simp [unravel_rev, ih]

theorem unravel_rev_length (l : List (String × Nat)) (s : Nat) :
    (unravel_rev l s).length = l.length := by
  have := congrArg List.length (unravel_rev_map_fst l s)
  simpa using this

theorem ravel_shift (L : List (Nat × Nat)) : ∀ a str : Nat,
    (L.foldl (fun (st : Nat × Nat) cd => (st.1 + cd.1 * st.2, st.2 * cd.2)) (a, str)).1 =
      a + str *
        (L.foldl (fun (st : Nat × Nat) cd => (st.1 + cd.1 * st.2, st.2 * cd.2)) (0, 1)).1 := by
  induction L with
  | nil => intro a str; simp
  | cons cd rest ih =>
    intro a str
    cases cd with
    | mk c d =>
      simp only [List.foldl_cons]
      rw [ih (a + c * str) (str * d), ih (0 + c * 1) (1 * d)]
      ring

theorem ravel_unravel (rl : List (String × Nat)) :
    ∀ s, s < (rl.map Prod.snd).prod →
    ((((unravel_rev rl s).map Prod.snd).zip (rl.map Prod.snd)).foldl
      (fun (st : Nat × Nat) cd => (st.1 + cd.1 * st.2, st.2 * cd.2)) (0, 1)).1 = s := by
  induction rl with
  | nil =>
    intro s hs
    simp only [List.map_nil, List.prod_nil, Nat.lt_one_iff] at hs
    simp [unravel_rev, hs]
  | cons p rest ih =>
    intro s hs
    cases p with
    | mk ax d =>
      simp only [List.map_cons, List.prod_cons] at hs
      have hd : 0 < d := by
        rcases Nat.eq_zero_or_pos d with h0 | h
        · subst h0; simp at hs
        · exact h
      have hdiv : s / d < (rest.map Prod.snd).prod :=
        (Nat.div_lt_iff_lt_mul hd).mpr (by rw [Nat.mul_comm]; exact hs)
      simp only [unravel_rev, List.map_cons, List.zip_cons_cons, List.foldl_cons]
      rw [ravel_shift, ih (s / d) hdiv]
      simp [Nat.mod_add_div]

theorem getVal_foldl_ins_not_mem (l : List (String × Nat)) :
    ∀ (m0 : List (String × Nat)) (k : String), (∀ q ∈ l, q.1 ≠ k) →
    getVal (l.foldl (fun m q => insertAL m q.1 q.2) m0) k = getVal m0 k := by
  induction l with
  | nil => intro m0 k _; rfl
  | cons q rest ih =>
    intro m0 k h
    rw [List.foldl_cons, ih _ k (fun q' hq' => h q' (List.mem_cons_of_mem _ hq'))]
    exact getVal_insertAL_ne _ _ _ _ (fun he => h q (List.mem_cons_self _ _) he.symm)

theorem getVal_foldl_ins_nodup (l : List (String × Nat)) :
    ∀ m0 : List (String × Nat), (l.map Prod.fst).Nodup → ∀ p ∈ l,
    getVal (l.foldl (fun m q => insertAL m q.1 q.2) m0) p.1 = some p.2 := by
  induction l with
  | nil => intro m0 _ p hp; simp at hp
  | cons q rest ih =>
    intro m0 hnd p hp
    simp only [List.map_cons, List.nodup_cons] at hnd
    rcases List.mem_cons.mp hp with rfl | hp2
    · rw [List.foldl_cons,
        getVal_foldl_ins_not_mem rest _ p.1
          (fun q' hq' he => hnd.1 (he ▸ List.mem_map_of_mem Prod.fst hq'))]
      exact getVal_insertAL_self _ _ _
    · exact ih _ hnd.2 p hp2

theorem loop_indices_getD (attrs : Attributes) (exp : List ExpLoop) (s : Nat)
    (hs : s < (coord_axis_order attrs exp).2.prod) :
    (loop_indices attrs exp).getD s [] =
      loop_indices_entry (coord_axis_order attrs exp).1 (coord_axis_order attrs exp).2 s := by
  unfold loop_indices
  rw [List.getD_eq_getElem?_getD]
  simp [List.getElem?_map, List.getElem?_range, hs]

/-- C1 (amended): the seq-to-coord round-trip law holds provided no axis
name repeats in the derived axis order (at most one time-type loop and at
most one of each of the P and Z loops): for every sequence index `s`
below the product of `coord_shape`, feeding the P, T, C, Z entries of
`loop_indices()[s]` back through `seq_index_from_coords` returns exactly
`s`.  With a repeated axis the map collapses the two coordinates and the
round trip fails (see the counterexample). -/
theorem C1_roundtrip (attrs : Attributes) (exp : List ExpLoop) (s : Nat)
    (hnd : (coord_axis_order attrs exp).1.Nodup)
    (hs : s < (coord_axis_order attrs exp).2.prod) :
    seq_index_from_coords attrs exp
      ((getVal ((loop_indices attrs exp).getD s []) AXIS_P).getD 0)
      ((getVal ((loop_indices attrs exp).getD s []) AXIS_T).getD 0)
      ((getVal ((loop_indices attrs exp).getD s []) AXIS_C).getD 0)
      ((getVal ((loop_indices attrs exp).getD s []) AXIS_Z).getD 0) = .ok s := by
  have hlen : (coord_axis_order attrs exp).1.length = (coord_axis_order attrs exp).2.length :=
    coord_axis_order_len attrs exp
  have hmem := coord_axis_order_mem attrs exp
  rw [loop_indices_getD attrs exp s hs]
  simp only [seq_index_from_coords]
  set A := (coord_axis_order attrs exp).1 with hA
  set S := (coord_axis_order attrs exp).2 with hS
  set m := loop_indices_entry A S s with hm
  rw [if_neg (by simp [hlen])]
  set rl := (A.zip S).reverse with hrl
  set crl := unravel_rev rl s with hcrl
  have hlencrl : crl.length = rl.length := unravel_rev_length rl s
  have hlenrl : rl.length = A.length := by
    rw [hrl]; simp [List.length_zip, hlen]
  have hrlfst : rl.map Prod.fst = A.reverse := by
    rw [hrl, List.map_reverse, List.map_fst_zip _ _ (le_of_eq hlen)]
  have hrlsnd : rl.map Prod.snd = S.reverse := by
    rw [hrl, List.map_reverse, List.map_snd_zip _ _ (ge_of_eq hlen)]
  have hcrlfst : crl.map Prod.fst = A.reverse := by
    rw [hcrl, unravel_rev_map_fst, hrlfst]
  have hndcrl : (crl.map Prod.fst).Nodup := by
    rw [hcrlfst]; exact List.nodup_reverse.mpr hnd
  have hget : ∀ p ∈ crl, getVal m p.1 = some p.2 := by
    intro p hp
    rw [hm]
    unfold loop_indices_entry
    rw [← hrl, ← hcrl]
    exact getVal_foldl_ins_nodup crl [] hndcrl p hp
  have hcoords : ((A.map (fun ax =>
      if ax = AXIS_P then (getVal m AXIS_P).getD 0
      else if ax = AXIS_T then (getVal m AXIS_T).getD 0
      else if ax = AXIS_C then (getVal m AXIS_C).getD 0
      else if ax = AXIS_Z then (getVal m AXIS_Z).getD 0
      else 0)).reverse) = crl.map Prod.snd := by
    apply List.ext_getElem
    · simp [hlencrl, hlenrl]
    · intro j h1 h2
      have hj1 : j < crl.length := by simpa using h2
      have hj2 : j < A.length := by
        rw [← hlenrl, ← hlencrl]; exact hj1
      rw [List.getElem_reverse]
      simp only [List.getElem_map, List.length_map]
      have hjr : A.length - 1 - j < A.length := by omega
      have hfst : crl[j].1 = A[A.length - 1 - j] := by
        have e1 := List.getElem_of_eq hcrlfst (by simpa using hj1 :
          j < (crl.map Prod.fst).length)
        rw [List.getElem_map] at e1
        rw [List.getElem_reverse] at e1
        exact e1
      have hmem4 := hmem (A[A.length - 1 - j]) (List.getElem_mem hjr)
      have hgv := hget (crl[j]) (List.getElem_mem hj1)
      rw [hfst] at hgv
      rcases hmem4 with h4 | h4 | h4 | h4 <;> rw [h4] at hgv ⊢ <;>
        simp only [AXIS_P, AXIS_T, AXIS_C, AXIS_Z] at hgv ⊢ <;> simp [hgv]
  have hs2 : s < (rl.map Prod.snd).prod := by
    rw [hrlsnd, List.prod_reverse]; exact hs
  have hzip : (((A.map (fun ax =>
      if ax = AXIS_P then (getVal m AXIS_P).getD 0
      else if ax = AXIS_T then (getVal m AXIS_T).getD 0
      else if ax = AXIS_C then (getVal m AXIS_C).getD 0
      else if ax = AXIS_Z then (getVal m AXIS_Z).getD 0
      else 0)).zip S).reverse) = (crl.map Prod.snd).zip (rl.map Prod.snd) := by
    rw [zip_reverse _ _ (by simp [hlen]), hcoords, hrlsnd]
  rw [hzip, hcrl, ravel_unravel rl s hs2]

/-- C1 counterexample: a file whose experiment parses to two nested time
loops (counts 2 and 3 — produced here by `parse_experiment` on a concrete
CLX tree, so the experiment genuinely parses) yields the axis order
[T, T, C, P, Z]; the coordinate map at sequence index 1 keeps only the
outer T coordinate, and feeding its P, T, C, Z entries back through
`seq_index_from_coords` returns 0, not 1. -/
theorem C1_counterexample :
    parse_experiment 10 clx0 = .ok exp0 ∧
    coord_axis_order attrs0 exp0 = ([AXIS_T, AXIS_T, AXIS_C, AXIS_P, AXIS_Z],
      [2, 3, 1, 1, 1]) ∧
    1 < ([2, 3, 1, 1, 1] : List Nat).prod ∧
    seq_index_from_coords attrs0 exp0
      ((getVal ((loop_indices attrs0 exp0).getD 1 []) AXIS_P).getD 0)
      ((getVal ((loop_indices attrs0 exp0).getD 1 []) AXIS_T).getD 0)
      ((getVal ((loop_indices attrs0 exp0).getD 1 []) AXIS_C).getD 0)
      ((getVal ((loop_indices attrs0 exp0).getD 1 []) AXIS_Z).getD 0) = .ok 0 ∧
    (0 : Nat) ≠ 1 :=
  ⟨rfl, by decide, by decide, rfl, by decide⟩

/-- C1 witness: the round-trip law applied to a duplicate-free axis order
(one time loop of count 2, one Z stack of count 3) at sequence index 4. -/
theorem C1_witness :
    (coord_axis_order attrs0 expW).1.Nodup ∧
    4 < (coord_axis_order attrs0 expW).2.prod ∧
    seq_index_from_coords attrs0 expW
      ((getVal ((loop_indices attrs0 expW).getD 4 []) AXIS_P).getD 0)
      ((getVal ((loop_indices attrs0 expW).getD 4 []) AXIS_T).getD 0)
      ((getVal ((loop_indices attrs0 expW).getD 4 []) AXIS_C).getD 0)
      ((getVal ((loop_indices attrs0 expW).getD 4 []) AXIS_Z).getD 0) = .ok 4 :=
  ⟨by decide, by decide, C1_roundtrip attrs0 expW 4 (by decide) (by decide)⟩

end Nd2
